import Mathlib

/-! # Tic-tac-toe server (`main.go`): the game state machine

A shallow embedding of the request handlers of `main.go` and of the helpers
they call.  The package-level variables `board`, `currentPlayer`,
`gameActive`, `scoreX`, `scoreO` become the fields of `GameState`; every
handler is a function from the state before the request to the state after
it together with the HTTP response.

Conventions.
* Marks are Go strings, as in the source (`"X"`, `"O"`, and `" "` for an
  empty cell).
* Go `int` is the 64-bit two's complement integer; `scoreX++` wraps.
* An index expression whose index is a run-time value (`board[row][col]`
  in `isValidMove` and in `makeMoveHandler`) is fallible: `none` is Go's
  index-out-of-range panic.  Indices that are loop counters over `0..2` or
  literals are of type `Fin 3`.
* Requests are served one at a time.  `indexHandler` only reads the
  variables and is left out.
* `parseInt` calls `fmt.Sscanf(s, "%d", &result)`; the scan is modelled on
  the characters of the string (a Go string that is not valid UTF-8 has no
  counterpart here).
-/

namespace TicTacToe

/-! ## Data model -/

/-- The Go array type `[3][3]string`. -/
abbrev Grid := Fin 3 → Fin 3 → String

/-- The package-level variables of `main.go`. -/
structure GameState where
  board : Grid
  currentPlayer : String
  gameActive : Bool
  scoreX : Int
  scoreO : Int

/-- The Go struct `GameResponse`, the JSON snapshot sent to the client. -/
structure GameResponse where
  Board : Grid
  CurrentPlayer : String
  Message : String
  GameActive : Bool
  ScoreX : Int
  ScoreO : Int

/-- What a handler writes to the `http.ResponseWriter`: either
`http.Error(w, body, code)` or the JSON encoding of a `GameResponse`
(status 200). -/
inductive Response where
  | error (body : String) (code : Nat)
  | json (r : GameResponse)

/-- HTTP status code of a response. -/
def Response.status : Response → Nat
  | .error _ code => code
  | .json _ => 200

/-- The constant `http.StatusBadRequest`. -/
def StatusBadRequest : Nat := 400

/-! ## Machine integers -/

/-- Reduction of a mathematical integer to the range of Go's 64-bit `int`. -/
def wrapInt (x : Int) : Int := (x + 2 ^ 63) % 2 ^ 64 - 2 ^ 63

/-- Largest value of Go's 64-bit `int`. -/
def maxInt : Int := 2 ^ 63 - 1

/-! ## Array access -/

/-- The assignment `board[i][j] = v` at indices within the array. -/
def Grid.set (b : Grid) (i j : Fin 3) (v : String) : Grid :=
  fun i' j' => if i' = i ∧ j' = j then v else b i' j'

/-- The index expression `board[row][col]` at run-time indices; `none` is the
index-out-of-range panic. -/
def Grid.index (b : Grid) (row col : Int) : Option String :=
  if h : 0 ≤ row ∧ row < 3 ∧ 0 ≤ col ∧ col < 3 then
    some (b ⟨row.toNat, by omega⟩ ⟨col.toNat, by omega⟩)
  else none

/-- The assignment `board[row][col] = v` at run-time indices; `none` is the
index-out-of-range panic. -/
def Grid.assign (b : Grid) (row col : Int) (v : String) : Option Grid :=
  if h : 0 ≤ row ∧ row < 3 ∧ 0 ≤ col ∧ col < 3 then
    some (b.set ⟨row.toNat, by omega⟩ ⟨col.toNat, by omega⟩ v)
  else none

/-! ## `parseInt`: `fmt.Sscanf(s, "%d", &result)` -/

/-- The predicate `isSpace` of Go's `fmt` scanner (its `space` range table). -/
def isSpace (r : Char) : Bool :=
  let n := r.toNat
  (0x0009 ≤ n && n ≤ 0x000d) || n == 0x0020 || n == 0x0085 || n == 0x00a0 ||
  n == 0x1680 || (0x2000 ≤ n && n ≤ 0x200a) || n == 0x2028 || n == 0x2029 ||
  n == 0x202f || n == 0x205f || n == 0x3000

/-- The scanner's `SkipSpace` under `Sscanf` (newlines are not space there):
drops leading space, `none` on a newline (the scan error "unexpected
newline"). -/
def skipSpace : List Char → Option (List Char)
  | [] => some []
  | c :: cs =>
    if c = '\n' then none
    else if isSpace c then skipSpace cs
    else some (c :: cs)

/-- The scanner's `scanInt` for the verb `%d` after the leading space is
skipped: an optional sign, then at least one decimal digit, then
`strconv.ParseInt(tok, 10, 64)`.  `none` is a scan error (end of input, no
digit, or a value out of the range of `int64`). -/
def scanInt (cs : List Char) : Option Int :=
  match cs with
  | [] => none
  | c :: rest =>
    let neg := c = '-'
    let ds := if c = '-' ∨ c = '+' then rest else c :: rest
    let tok := ds.takeWhile Char.isDigit
    if tok = [] then none
    else
      let n : Int := tok.foldl (fun acc d => acc * 10 + ((d.toNat : Int) - 48)) 0
      let v := if neg then -n else n
      if -2 ^ 63 ≤ v ∧ v ≤ 2 ^ 63 - 1 then some v else none

/-- The function `parseInt`: `result` starts as 0 and is overwritten only when
the scan succeeds; the error returned by `Sscanf` is dropped. -/
def parseInt (s : String) : Int :=
  match skipSpace s.toList with
  | none => 0
  | some cs => (scanInt cs).getD 0

/-! ## Board helpers -/

/-- The function `initializeBoard`: the two nested loops over `0..2`, each
iteration assigning `" "` to one cell. -/
def initializeBoard (b : Grid) : Grid :=
  (List.finRange 3).foldl
    (fun b i => (List.finRange 3).foldl (fun b j => b.set i j " ") b) b

/-- The function `isValidMove`, with Go's short-circuit `&&`: the board is read
only when both indices passed the range tests. -/
def isValidMove (b : Grid) (row col : Int) : Option Bool :=
  if decide (row ≥ 0) && decide (row < 3) && decide (col ≥ 0) && decide (col < 3) then
    (b.index row col).map (fun cell => cell == " ")
  else some false

/-- The function `checkWinner`: the loop over `i` tests row `i` then column
`i`; after it the two diagonals. -/
def checkWinner (b : Grid) (currentPlayer : String) : Bool :=
  (List.finRange 3).any (fun i =>
      (b i 0 == currentPlayer && b i 1 == currentPlayer && b i 2 == currentPlayer) ||
      (b 0 i == currentPlayer && b 1 i == currentPlayer && b 2 i == currentPlayer)) ||
  (b 0 0 == currentPlayer && b 1 1 == currentPlayer && b 2 2 == currentPlayer) ||
  (b 0 2 == currentPlayer && b 1 1 == currentPlayer && b 2 0 == currentPlayer)

/-- The function `isBoardFull`: false at the first cell equal to `" "`. -/
def isBoardFull (b : Grid) : Bool :=
  (List.finRange 3).all (fun i => (List.finRange 3).all (fun j => !(b i j == " ")))

/-- The function `switchPlayer`. -/
def switchPlayer (s : GameState) : GameState :=
  if s.currentPlayer == "X" then { s with currentPlayer := "O" }
  else { s with currentPlayer := "X" }

/-- The function `updateScores`: `scoreX++` or `scoreO++` on Go's `int`. -/
def updateScores (s : GameState) (player : String) : GameState :=
  if player == "X" then { s with scoreX := wrapInt (s.scoreX + 1) }
  else { s with scoreO := wrapInt (s.scoreO + 1) }

/-- The snapshot built by `sendJSONResponse` from the package-level variables. -/
def snapshot (s : GameState) (message : String) : GameResponse :=
  { Board := s.board, CurrentPlayer := s.currentPlayer, Message := message,
    GameActive := s.gameActive, ScoreX := s.scoreX, ScoreO := s.scoreO }

/-- The function `sendJSONResponse`. -/
def sendJSONResponse (s : GameState) (message : String) : Response :=
  .json (snapshot s message)

/-! ## Handlers -/

/-- The function `makeMoveHandler`; `row` and `col` are the results of
`r.URL.Query().Get("row")` and `r.URL.Query().Get("col")` (the empty string
when the parameter is missing).  `none` is a run-time panic. -/
def makeMoveHandler (s : GameState) (row col : String) :
    Option (GameState × Response) :=
  if !s.gameActive then
    some (s, .error "Game over" StatusBadRequest)
  else if row == "" || col == "" then
    some (s, .error "Invalid request parameters" StatusBadRequest)
  else
    let rowInt := parseInt row
    let colInt := parseInt col
    match isValidMove s.board rowInt colInt with
    | none => none
    | some false => some (s, .error "Invalid move" StatusBadRequest)
    | some true =>
      match s.board.assign rowInt colInt s.currentPlayer with
      | none => none
      | some b =>
        let s1 : GameState := { s with board := b }
        if checkWinner s1.board s1.currentPlayer then
          let s2 := updateScores { s1 with gameActive := false } s1.currentPlayer
          some (s2, sendJSONResponse s2 ("Player " ++ s2.currentPlayer ++ " wins!"))
        else if isBoardFull s1.board then
          let s2 : GameState := { s1 with gameActive := false }
          some (s2, sendJSONResponse s2 "It's a draw!")
        else
          let s2 := switchPlayer s1
          some (s2, sendJSONResponse s2 "")

/-- The function `resetHandler`. -/
def resetHandler (s : GameState) : Option (GameState × Response) :=
  let s1 : GameState :=
    { s with board := initializeBoard s.board, currentPlayer := "X", gameActive := true }
  some (s1, sendJSONResponse s1 "")

/-- The package-level variables before `main` runs (Go zero values). -/
def zeroState : GameState :=
  { board := fun _ _ => "", currentPlayer := "", gameActive := false, scoreX := 0, scoreO := 0 }

/-- The state set up by `main` before the server starts listening. -/
def initialState : GameState :=
  { zeroState with
    board := initializeBoard zeroState.board, currentPlayer := "X", gameActive := true }

/-- The two state-changing requests of the server. -/
inductive Request where
  | makeMove (row col : String)
  | reset

/-- Dispatch of a request to its handler. -/
def handle (s : GameState) : Request → Option (GameState × Response)
  | .makeMove row col => makeMoveHandler s row col
  | .reset => resetHandler s

/-- States reachable from the state set up by `main` by finitely many
`makeMove` and `reset` requests. -/
inductive Reachable : GameState → Prop where
  | init : Reachable initialState
  | step {s s' : GameState} {resp : Response} (req : Request) :
      Reachable s → handle s req = some (s', resp) → Reachable s'

/-! ## Vocabulary of the properties -/

/-- Some row, column or diagonal of the board holds three marks `m`. -/
def HasLine (b : Grid) (m : String) : Prop :=
  (∃ i : Fin 3, b i 0 = m ∧ b i 1 = m ∧ b i 2 = m) ∨
  (∃ j : Fin 3, b 0 j = m ∧ b 1 j = m ∧ b 2 j = m) ∨
  (b 0 0 = m ∧ b 1 1 = m ∧ b 2 2 = m) ∨
  (b 0 2 = m ∧ b 1 1 = m ∧ b 2 0 = m)

/-- The board has no empty cell. -/
def NoEmpty (b : Grid) : Prop := ∀ i j : Fin 3, b i j ≠ " "


/-- The snapshot carried by a JSON response (`none` for `http.Error`). -/
def Response.snapshot? : Response → Option GameResponse
  | .error _ _ => none
  | .json r => some r

/-- Serve a list of requests in order; the result is the final state and the
responses in order, `none` if a handler panics. -/
def serve (s : GameState) : List Request → Option (GameState × List Response)
  | [] => some (s, [])
  | req :: rest =>
    match handle s req with
    | none => none
    | some (s', resp) =>
      match serve s' rest with
      | none => none
      | some (s'', rs) => some (s'', resp :: rs)

/-- The state after serving a list of requests (the starting state if a
handler panics). -/
def run (s : GameState) (reqs : List Request) : GameState :=
  ((serve s reqs).map Prod.fst).getD s

/-- The response to the last request of a list (`none` for the empty list or
after a panic). -/
def lastResponse (s : GameState) (reqs : List Request) : Option Response :=
  (serve s reqs).bind (fun p => p.2.getLast?)

/-- Scenario A of the specification: X takes the top row. -/
def scenarioA : List Request :=
  [.makeMove "0" "0", .makeMove "1" "1", .makeMove "0" "1", .makeMove "2" "2",
   .makeMove "0" "2"]

/-- Scenario B of the specification: the board fills up without a line. -/
def scenarioB : List Request :=
  [.makeMove "0" "0", .makeMove "0" "2", .makeMove "0" "1", .makeMove "1" "0",
   .makeMove "1" "2", .makeMove "1" "1", .makeMove "2" "0", .makeMove "2" "1",
   .makeMove "2" "2"]

/-- The invariant behind the reachable-state properties. -/
structure Inv (s : GameState) : Prop where
  player : s.currentPlayer = "X" ∨ s.currentPlayer = "O"
  active : s.gameActive = true →
    ¬ HasLine s.board "X" ∧ ¬ HasLine s.board "O" ∧ ¬ NoEmpty s.board
  over : s.gameActive = false →
    HasLine s.board "X" ∨ HasLine s.board "O" ∨ NoEmpty s.board

/-- The state of Scenario A before its last move: X holds (0,0) and (0,1), O
holds (1,1) and (2,2), X is to move. -/
def beforeWinA : GameState := run initialState (scenarioA.take 4)

/-- The state of Scenario B before its last move: only (2,2) is empty and X is
to move. -/
def beforeDrawB : GameState := run initialState (scenarioB.take 8)

/-- The state after the opening move X to (0,0). -/
def afterOpening : GameState := run initialState [.makeMove "0" "0"]

/-- The condition under which `makeMoveHandler` answers with `http.Error`: the
game is over, a coordinate string is empty, or `isValidMove` on the parsed
coordinates is false. -/
def Rejects (s : GameState) (row col : String) : Prop :=
  s.gameActive = false ∨ row = "" ∨ col = "" ∨
    isValidMove s.board (parseInt row) (parseInt col) = some false

/-- The request is a move of the player with mark `m` that was accepted (answered
with status 200) and after which some row, column or diagonal holds three
marks `m`; `s` and `s'` are the states before and after it. -/
def WinningMoveBy (m : String) (s : GameState) (req : Request) (s' : GameState)
    (resp : Response) : Prop :=
  (∃ row col, req = .makeMove row col) ∧ resp.status = 200 ∧ s.currentPlayer = m ∧
    HasLine s'.board m

/-- The value is in the range of Go's 64-bit `int`. -/
def IsInt (x : Int) : Prop := -2 ^ 63 ≤ x ∧ x ≤ maxInt

/-- The state before the last move of Scenario A with `scoreX` at the largest
`int`. -/
def overflowState : GameState := { beforeWinA with scoreX := maxInt }

/-- Scenario E of the specification: a reset after Scenario A. -/
def scenarioE : List Request := scenarioA ++ [.reset]

/-- Every cell of the board is one of `"X"`, `"O"`, `" "` and the player is one
of `"X"`, `"O"`. -/
def Shape (b : Grid) (player : String) : Prop :=
  (∀ i j : Fin 3, b i j = "X" ∨ b i j = "O" ∨ b i j = " ") ∧
    (player = "X" ∨ player = "O")

/-- Every complete line of a non-empty mark on the board is a line of the
current player. -/
def LinesOfPlayer (s : GameState) : Prop :=
  ∀ m : String, m ≠ " " → HasLine s.board m → m = s.currentPlayer

/-- The characters begin with a decimal integer: a decimal digit, or a sign
followed by a decimal digit. -/
def startsWithInteger (cs : List Char) : Bool :=
  match cs with
  | [] => false
  | c :: rest =>
    c.isDigit || ((c == '+' || c == '-') &&
      (match rest with
       | [] => false
       | d :: _ => d.isDigit))

/-- The characters after the leading white space, a newline not counting as
white space. -/
def dropLeadingSpace (cs : List Char) : List Char :=
  cs.dropWhile (fun c => isSpace c && c != '\n')

/-- The nine cells of the board, row by row. -/
def cells : List (Fin 3 × Fin 3) :=
  [(0, 0), (0, 1), (0, 2), (1, 0), (1, 1), (1, 2), (2, 0), (2, 1), (2, 2)]

/-- The number of cells of the board that hold the mark `m`. -/
def countMark (b : Grid) (m : String) : Nat :=
  (cells.map (fun p => if b p.1 p.2 = m then 1 else 0)).sum

/-- The relation between the numbers of marks and the turn: X has as many marks
as O or one more, and while the game is active X is to move in the first
case and O in the second. -/
def Balanced (s : GameState) : Prop :=
  (countMark s.board "X" = countMark s.board "O" ∨
    countMark s.board "X" = countMark s.board "O" + 1) ∧
  (s.gameActive = true →
    (s.currentPlayer = "X" ∧ countMark s.board "X" = countMark s.board "O") ∨
    (s.currentPlayer = "O" ∧ countMark s.board "X" = countMark s.board "O" + 1))

/-- The number of accepted requests among the responses (status 200). -/
def accepted (rs : List Response) : Nat :=
  (rs.filter (fun r => r.status == 200)).length

/-- Once no cell is empty the game is over. -/
def FullIsOver (s : GameState) : Prop :=
  countMark s.board " " = 0 → s.gameActive = false

/-- Every request of the list is a move request (the list holds no reset). -/
def AllMoves (reqs : List Request) : Prop :=
  ∀ req ∈ reqs, ∃ row col, req = Request.makeMove row col

/-! ## Basic facts about the helpers -/

theorem finRange_three : List.finRange 3 = [0, 1, 2] := by decide

theorem exists_fin_three (P : Fin 3 → Prop) : (∃ i, P i) ↔ P 0 ∨ P 1 ∨ P 2 := by
  constructor
  · rintro ⟨i, hi⟩
    fin_cases i
    · exact Or.inl hi
    · exact Or.inr (Or.inl hi)
    · exact Or.inr (Or.inr hi)
  · rintro (h | h | h)
    exacts [⟨0, h⟩, ⟨1, h⟩, ⟨2, h⟩]

theorem forall_fin_three (P : Fin 3 → Prop) : (∀ i, P i) ↔ P 0 ∧ P 1 ∧ P 2 := by
  constructor
  · intro h
    exact ⟨h 0, h 1, h 2⟩
  · rintro ⟨h0, h1, h2⟩ i
    fin_cases i
    exacts [h0, h1, h2]

theorem checkWinner_iff (b : Grid) (m : String) : checkWinner b m = true ↔ HasLine b m := by
  simp only [checkWinner, HasLine, finRange_three, exists_fin_three, List.any_cons, List.any_nil,
    Bool.or_false, Bool.or_eq_true, Bool.and_eq_true, beq_iff_eq]
  constructor
  · rintro ((((⟨⟨h1, h2⟩, h3⟩ | ⟨⟨h1, h2⟩, h3⟩) | (⟨⟨h1, h2⟩, h3⟩ | ⟨⟨h1, h2⟩, h3⟩) |
      ⟨⟨h1, h2⟩, h3⟩ | ⟨⟨h1, h2⟩, h3⟩) | ⟨⟨h1, h2⟩, h3⟩) | ⟨⟨h1, h2⟩, h3⟩)
    all_goals simp only [h1, h2, h3, and_self, true_or, or_true]
  · rintro ((⟨h1, h2, h3⟩ | ⟨h1, h2, h3⟩ | ⟨h1, h2, h3⟩) |
      (⟨h1, h2, h3⟩ | ⟨h1, h2, h3⟩ | ⟨h1, h2, h3⟩) | ⟨h1, h2, h3⟩ | ⟨h1, h2, h3⟩)
    all_goals simp only [h1, h2, h3, and_self, true_or, or_true]

theorem isBoardFull_iff (b : Grid) : isBoardFull b = true ↔ NoEmpty b := by
  simp only [isBoardFull, NoEmpty, finRange_three, forall_fin_three, List.all_cons, List.all_nil,
    Bool.and_true, Bool.and_eq_true, Bool.not_eq_true', beq_eq_false_iff_ne, ne_eq]

theorem initializeBoard_apply (b : Grid) (i j : Fin 3) : initializeBoard b i j = " " := by
  simp only [initializeBoard, finRange_three, List.foldl, Grid.set]
  fin_cases i <;> fin_cases j <;> simp

theorem set_self (b : Grid) (r c : Fin 3) (v : String) : b.set r c v r c = v := by
  simp [Grid.set]

theorem set_other (b : Grid) (r c i j : Fin 3) (v : String) (h : ¬ (i = r ∧ j = c)) :
    b.set r c v i j = b i j := by
  simp only [Grid.set, if_neg h]

theorem hasLine_set_other (b : Grid) (r c : Fin 3) (v m : String) (hvm : v ≠ m)
    (h : HasLine (b.set r c v) m) : HasLine b m := by
  have key : ∀ i j : Fin 3, b.set r c v i j = m → b i j = m := by
    intro i j hij
    unfold Grid.set at hij
    split at hij
    · exact absurd hij hvm
    · exact hij
  rcases h with ⟨i, h1, h2, h3⟩ | ⟨j, h1, h2, h3⟩ | ⟨h1, h2, h3⟩ | ⟨h1, h2, h3⟩
  · exact Or.inl ⟨i, key _ _ h1, key _ _ h2, key _ _ h3⟩
  · exact Or.inr (Or.inl ⟨j, key _ _ h1, key _ _ h2, key _ _ h3⟩)
  · exact Or.inr (Or.inr (Or.inl ⟨key _ _ h1, key _ _ h2, key _ _ h3⟩))
  · exact Or.inr (Or.inr (Or.inr ⟨key _ _ h1, key _ _ h2, key _ _ h3⟩))

theorem not_hasLine_of_blank (b : Grid) (m : String) (hm : m ≠ " ")
    (hb : ∀ i j : Fin 3, b i j = " ") : ¬ HasLine b m := by
  have key : ∀ i j : Fin 3, b i j ≠ m := fun i j h => hm (h.symm.trans (hb i j))
  rintro (⟨i, h1, -, -⟩ | ⟨j, h1, -, -⟩ | ⟨h1, -, -⟩ | ⟨h1, -, -⟩)
  all_goals exact key _ _ h1

theorem exists_fin_of_inrange (row col : Int) (h : 0 ≤ row ∧ row < 3 ∧ 0 ≤ col ∧ col < 3) :
    ∃ r c : Fin 3, row = (r.val : Int) ∧ col = (c.val : Int) :=
  ⟨⟨row.toNat, by omega⟩, ⟨col.toNat, by omega⟩, by simp; omega, by simp; omega⟩

theorem isValidMove_inrange (b : Grid) (r c : Fin 3) :
    isValidMove b (r.val : Int) (c.val : Int) = some (b r c == " ") := by
  have hr := r.isLt
  have hc := c.isLt
  have h : (0:Int) ≤ r.val ∧ (r.val:Int) < 3 ∧ (0:Int) ≤ c.val ∧ (c.val:Int) < 3 := by omega
  simp [isValidMove, Grid.index, h]

theorem isValidMove_outrange (b : Grid) (row col : Int)
    (h : ¬ (0 ≤ row ∧ row < 3 ∧ 0 ≤ col ∧ col < 3)) :
    isValidMove b row col = some false := by
  unfold isValidMove
  rw [if_neg]
  simpa using h

theorem isValidMove_total (b : Grid) (row col : Int) :
    isValidMove b row col = some true ∨ isValidMove b row col = some false := by
  by_cases h : 0 ≤ row ∧ row < 3 ∧ 0 ≤ col ∧ col < 3
  · obtain ⟨r, c, rfl, rfl⟩ := exists_fin_of_inrange row col h
    rw [isValidMove_inrange]
    cases (b r c == " ") <;> simp
  · exact Or.inr (isValidMove_outrange b row col h)

theorem isValidMove_true_iff (b : Grid) (row col : Int) :
    isValidMove b row col = some true ↔
      ∃ r c : Fin 3, row = (r.val : Int) ∧ col = (c.val : Int) ∧ b r c = " " := by
  constructor
  · intro hv
    by_cases h : 0 ≤ row ∧ row < 3 ∧ 0 ≤ col ∧ col < 3
    · obtain ⟨r, c, rfl, rfl⟩ := exists_fin_of_inrange row col h
      rw [isValidMove_inrange] at hv
      exact ⟨r, c, rfl, rfl, by simpa using hv⟩
    · rw [isValidMove_outrange b row col h] at hv
      simp at hv
  · rintro ⟨r, c, rfl, rfl, hcell⟩
    rw [isValidMove_inrange]
    simp [hcell]

theorem assign_inrange (b : Grid) (r c : Fin 3) (v : String) :
    b.assign (r.val : Int) (c.val : Int) v = some (b.set r c v) := by
  have hr := r.isLt
  have hc := c.isLt
  have h : (0:Int) ≤ r.val ∧ (r.val:Int) < 3 ∧ (0:Int) ≤ c.val ∧ (c.val:Int) < 3 := by omega
  simp [Grid.assign, h]

theorem wrapInt_succ (x : Int) (hx : IsInt x) (hmax : x < maxInt) : wrapInt (x + 1) = x + 1 := by
  unfold IsInt maxInt at hx
  unfold maxInt at hmax
  unfold wrapInt
  omega

theorem updateScores_currentPlayer (s : GameState) (p : String) :
    (updateScores s p).currentPlayer = s.currentPlayer := by
  unfold updateScores; split <;> rfl

theorem updateScores_board (s : GameState) (p : String) :
    (updateScores s p).board = s.board := by
  unfold updateScores; split <;> rfl

theorem updateScores_gameActive (s : GameState) (p : String) :
    (updateScores s p).gameActive = s.gameActive := by
  unfold updateScores; split <;> rfl

theorem switchPlayer_board (s : GameState) : (switchPlayer s).board = s.board := by
  unfold switchPlayer; split <;> rfl

theorem switchPlayer_gameActive (s : GameState) :
    (switchPlayer s).gameActive = s.gameActive := by
  unfold switchPlayer; split <;> rfl

theorem switchPlayer_scoreX (s : GameState) : (switchPlayer s).scoreX = s.scoreX := by
  unfold switchPlayer; split <;> rfl

theorem switchPlayer_scoreO (s : GameState) : (switchPlayer s).scoreO = s.scoreO := by
  unfold switchPlayer; split <;> rfl

theorem switchPlayer_currentPlayer (s : GameState) :
    (switchPlayer s).currentPlayer = if s.currentPlayer = "X" then "O" else "X" := by
  unfold switchPlayer; split <;> simp_all

/-! ## The outcomes of a move request -/

theorem makeMoveHandler_gameOver (s : GameState) (row col : String)
    (hact : s.gameActive = false) :
    makeMoveHandler s row col = some (s, .error "Game over" StatusBadRequest) := by
  simp [makeMoveHandler, hact]

theorem makeMoveHandler_missing (s : GameState) (row col : String)
    (hact : s.gameActive = true) (h : row = "" ∨ col = "") :
    makeMoveHandler s row col =
      some (s, .error "Invalid request parameters" StatusBadRequest) := by
  simp [makeMoveHandler, hact, h]

theorem makeMoveHandler_invalid (s : GameState) (row col : String)
    (hact : s.gameActive = true) (hrow : row ≠ "") (hcol : col ≠ "")
    (hv : isValidMove s.board (parseInt row) (parseInt col) = some false) :
    makeMoveHandler s row col = some (s, .error "Invalid move" StatusBadRequest) := by
  simp [makeMoveHandler, hact, hrow, hcol, hv]

theorem makeMoveHandler_win (s : GameState) (row col : String) (r c : Fin 3)
    (hact : s.gameActive = true) (hrow : row ≠ "") (hcol : col ≠ "")
    (hr : parseInt row = (r.val : Int)) (hc : parseInt col = (c.val : Int))
    (hcell : s.board r c = " ")
    (hw : checkWinner (s.board.set r c s.currentPlayer) s.currentPlayer = true) :
    makeMoveHandler s row col =
      some (updateScores
              { s with board := s.board.set r c s.currentPlayer, gameActive := false }
              s.currentPlayer,
            sendJSONResponse
              (updateScores
                { s with board := s.board.set r c s.currentPlayer, gameActive := false }
                s.currentPlayer)
              ("Player " ++ s.currentPlayer ++ " wins!")) := by
  have hv : isValidMove s.board (r.val : Int) (c.val : Int) = some true := by
    rw [isValidMove_inrange]; simp [hcell]
  simp [makeMoveHandler, hact, hrow, hcol, hr, hc, hv, assign_inrange, hw,
    updateScores_currentPlayer]

theorem makeMoveHandler_draw (s : GameState) (row col : String) (r c : Fin 3)
    (hact : s.gameActive = true) (hrow : row ≠ "") (hcol : col ≠ "")
    (hr : parseInt row = (r.val : Int)) (hc : parseInt col = (c.val : Int))
    (hcell : s.board r c = " ")
    (hw : checkWinner (s.board.set r c s.currentPlayer) s.currentPlayer = false)
    (hf : isBoardFull (s.board.set r c s.currentPlayer) = true) :
    makeMoveHandler s row col =
      some ({ s with board := s.board.set r c s.currentPlayer, gameActive := false },
            sendJSONResponse
              { s with board := s.board.set r c s.currentPlayer, gameActive := false }
              "It's a draw!") := by
  have hv : isValidMove s.board (r.val : Int) (c.val : Int) = some true := by
    rw [isValidMove_inrange]; simp [hcell]
  simp [makeMoveHandler, hact, hrow, hcol, hr, hc, hv, assign_inrange, hw, hf]

theorem makeMoveHandler_continue (s : GameState) (row col : String) (r c : Fin 3)
    (hact : s.gameActive = true) (hrow : row ≠ "") (hcol : col ≠ "")
    (hr : parseInt row = (r.val : Int)) (hc : parseInt col = (c.val : Int))
    (hcell : s.board r c = " ")
    (hw : checkWinner (s.board.set r c s.currentPlayer) s.currentPlayer = false)
    (hf : isBoardFull (s.board.set r c s.currentPlayer) = false) :
    makeMoveHandler s row col =
      some (switchPlayer { s with board := s.board.set r c s.currentPlayer },
            sendJSONResponse
              (switchPlayer { s with board := s.board.set r c s.currentPlayer }) "") := by
  have hv : isValidMove s.board (r.val : Int) (c.val : Int) = some true := by
    rw [isValidMove_inrange]; simp [hcell]
  simp [makeMoveHandler, hact, hrow, hcol, hr, hc, hv, assign_inrange, hw, hf]

/-- Every outcome of `makeMoveHandler`: one of the three rejections, which
return the state as it was, or one of the three accepted branches. -/
theorem makeMoveHandler_cases (s : GameState) (row col : String) :
    (s.gameActive = false ∧
      makeMoveHandler s row col = some (s, .error "Game over" StatusBadRequest)) ∨
    (s.gameActive = true ∧ (row = "" ∨ col = "") ∧
      makeMoveHandler s row col =
        some (s, .error "Invalid request parameters" StatusBadRequest)) ∨
    (s.gameActive = true ∧ row ≠ "" ∧ col ≠ "" ∧
      isValidMove s.board (parseInt row) (parseInt col) = some false ∧
      makeMoveHandler s row col = some (s, .error "Invalid move" StatusBadRequest)) ∨
    (∃ r c : Fin 3, s.gameActive = true ∧ row ≠ "" ∧ col ≠ "" ∧
      parseInt row = (r.val : Int) ∧ parseInt col = (c.val : Int) ∧ s.board r c = " " ∧
      isValidMove s.board (parseInt row) (parseInt col) = some true ∧
      ((checkWinner (s.board.set r c s.currentPlayer) s.currentPlayer = true ∧
        makeMoveHandler s row col =
          some (updateScores
                  { s with board := s.board.set r c s.currentPlayer, gameActive := false }
                  s.currentPlayer,
                sendJSONResponse
                  (updateScores
                    { s with board := s.board.set r c s.currentPlayer, gameActive := false }
                    s.currentPlayer)
                  ("Player " ++ s.currentPlayer ++ " wins!"))) ∨
       (checkWinner (s.board.set r c s.currentPlayer) s.currentPlayer = false ∧
        isBoardFull (s.board.set r c s.currentPlayer) = true ∧
        makeMoveHandler s row col =
          some ({ s with board := s.board.set r c s.currentPlayer, gameActive := false },
                sendJSONResponse
                  { s with board := s.board.set r c s.currentPlayer, gameActive := false }
                  "It's a draw!")) ∨
       (checkWinner (s.board.set r c s.currentPlayer) s.currentPlayer = false ∧
        isBoardFull (s.board.set r c s.currentPlayer) = false ∧
        makeMoveHandler s row col =
          some (switchPlayer { s with board := s.board.set r c s.currentPlayer },
                sendJSONResponse
                  (switchPlayer { s with board := s.board.set r c s.currentPlayer }) "")))) := by
  by_cases hact : s.gameActive = true
  case neg =>
    have hact' : s.gameActive = false := by simpa using hact
    exact Or.inl ⟨hact', makeMoveHandler_gameOver s row col hact'⟩
  case pos =>
    by_cases hm : row = "" ∨ col = ""
    · exact Or.inr (Or.inl ⟨hact, hm, makeMoveHandler_missing s row col hact hm⟩)
    · have hrow : row ≠ "" := fun h => hm (Or.inl h)
      have hcol : col ≠ "" := fun h => hm (Or.inr h)
      rcases isValidMove_total s.board (parseInt row) (parseInt col) with hv | hv
      · obtain ⟨r, c, hr, hc, hcell⟩ := (isValidMove_true_iff _ _ _).1 hv
        refine Or.inr (Or.inr (Or.inr ⟨r, c, hact, hrow, hcol, hr, hc, hcell, hv, ?_⟩))
        cases hw : checkWinner (s.board.set r c s.currentPlayer) s.currentPlayer with
        | true => exact Or.inl ⟨rfl, makeMoveHandler_win s row col r c hact hrow hcol hr hc hcell hw⟩
        | false =>
          cases hf : isBoardFull (s.board.set r c s.currentPlayer) with
          | true =>
            exact Or.inr (Or.inl ⟨rfl, rfl,
              makeMoveHandler_draw s row col r c hact hrow hcol hr hc hcell hw hf⟩)
          | false =>
            exact Or.inr (Or.inr ⟨rfl, rfl,
              makeMoveHandler_continue s row col r c hact hrow hcol hr hc hcell hw hf⟩)
      · exact Or.inr (Or.inr (Or.inl ⟨hact, hrow, hcol, hv,
          makeMoveHandler_invalid s row col hact hrow hcol hv⟩))

theorem makeMoveHandler_valid_board (s : GameState) (row col : String) (r c : Fin 3)
    (hact : s.gameActive = true) (hrow : row ≠ "") (hcol : col ≠ "")
    (hr : parseInt row = (r.val : Int)) (hc : parseInt col = (c.val : Int))
    (hcell : s.board r c = " ") :
    ∃ s' g, makeMoveHandler s row col = some (s', .json g) ∧
      s'.board = s.board.set r c s.currentPlayer := by
  cases hw : checkWinner (s.board.set r c s.currentPlayer) s.currentPlayer with
  | true =>
    exact ⟨_, _, makeMoveHandler_win s row col r c hact hrow hcol hr hc hcell hw,
      updateScores_board _ _⟩
  | false =>
    cases hf : isBoardFull (s.board.set r c s.currentPlayer) with
    | true =>
      exact ⟨_, _, makeMoveHandler_draw s row col r c hact hrow hcol hr hc hcell hw hf, rfl⟩
    | false =>
      exact ⟨_, _, makeMoveHandler_continue s row col r c hact hrow hcol hr hc hcell hw hf,
        switchPlayer_board _⟩

theorem makeMoveHandler_board_cases (s s' : GameState) (row col : String) (resp : Response)
    (h : makeMoveHandler s row col = some (s', resp)) :
    s' = s ∨ ∃ r c : Fin 3, s.board r c = " " ∧ s'.board = s.board.set r c s.currentPlayer := by
  rcases makeMoveHandler_cases s row col with ⟨-, he⟩ | ⟨-, -, he⟩ | ⟨-, -, -, -, he⟩ |
    ⟨r, c, -, -, -, -, -, hcell, -, hbr⟩
  · rw [he] at h; cases h; exact Or.inl rfl
  · rw [he] at h; cases h; exact Or.inl rfl
  · rw [he] at h; cases h; exact Or.inl rfl
  · refine Or.inr ⟨r, c, hcell, ?_⟩
    rcases hbr with ⟨-, he⟩ | ⟨-, -, he⟩ | ⟨-, -, he⟩
    · rw [he] at h; cases h; exact updateScores_board _ _
    · rw [he] at h; cases h; rfl
    · rw [he] at h; cases h; exact switchPlayer_board _

/-- The effect of `makeMoveHandler` on the scores: either the move was accepted
and completed a line of the mover, and the scores are those of
`updateScores`, or the scores are as before. -/
theorem makeMoveHandler_scores (s : GameState) (row col : String) :
    ∃ s' resp, makeMoveHandler s row col = some (s', resp) ∧
      ((resp.status = 200 ∧ HasLine s'.board s.currentPlayer ∧
          s'.scoreX = (updateScores s s.currentPlayer).scoreX ∧
          s'.scoreO = (updateScores s s.currentPlayer).scoreO) ∨
       (¬ (resp.status = 200 ∧ HasLine s'.board s.currentPlayer) ∧
          s'.scoreX = s.scoreX ∧ s'.scoreO = s.scoreO)) := by
  have herr : ∀ (s' : GameState) (body : String),
      ¬ ((Response.error body StatusBadRequest).status = 200 ∧
        HasLine s'.board s.currentPlayer) := by
    rintro s' body ⟨hst, -⟩
    simp [Response.status, StatusBadRequest] at hst
  rcases makeMoveHandler_cases s row col with ⟨-, he⟩ | ⟨-, -, he⟩ | ⟨-, -, -, -, he⟩ |
    ⟨r, c, -, -, -, -, -, -, -, hbr⟩
  · exact ⟨_, _, he, Or.inr ⟨herr _ _, rfl, rfl⟩⟩
  · exact ⟨_, _, he, Or.inr ⟨herr _ _, rfl, rfl⟩⟩
  · exact ⟨_, _, he, Or.inr ⟨herr _ _, rfl, rfl⟩⟩
  · rcases hbr with ⟨hw, he⟩ | ⟨hw, -, he⟩ | ⟨hw, -, he⟩
    · refine ⟨_, _, he, Or.inl ⟨rfl, ?_, ?_, ?_⟩⟩
      · rw [updateScores_board]; exact (checkWinner_iff _ _).1 hw
      · unfold updateScores; split <;> rfl
      · unfold updateScores; split <;> rfl
    · refine ⟨_, _, he, Or.inr ⟨?_, rfl, rfl⟩⟩
      rintro ⟨-, hl⟩
      rw [← checkWinner_iff] at hl
      exact absurd (hw.symm.trans hl) (by decide)
    · refine ⟨_, _, he, Or.inr ⟨?_, switchPlayer_scoreX _, switchPlayer_scoreO _⟩⟩
      rintro ⟨-, hl⟩
      rw [switchPlayer_board, ← checkWinner_iff] at hl
      exact absurd (hw.symm.trans hl) (by decide)

theorem winningMoveBy_makeMove_iff (m : String) (s s' : GameState) (row col : String)
    (resp : Response) :
    WinningMoveBy m s (.makeMove row col) s' resp ↔
      (s.currentPlayer = m ∧ resp.status = 200 ∧ HasLine s'.board s.currentPlayer) := by
  unfold WinningMoveBy
  constructor
  · rintro ⟨-, h1, h2, h3⟩
    exact ⟨h2, h1, by rw [h2]; exact h3⟩
  · rintro ⟨h2, h1, h3⟩
    exact ⟨⟨row, col, rfl⟩, h1, h2, by rw [← h2]; exact h3⟩

/-! ## The invariant of the reachable states -/

theorem inv_of_blank (s : GameState) (hb : ∀ i j : Fin 3, s.board i j = " ")
    (hp : s.currentPlayer = "X") (ha : s.gameActive = true) : Inv s where
  player := Or.inl hp
  active := fun _ =>
    ⟨not_hasLine_of_blank _ _ (by decide) hb, not_hasLine_of_blank _ _ (by decide) hb,
      fun hne => hne 0 0 (hb 0 0)⟩
  over := fun h => by rw [ha] at h; exact absurd h (by decide)

theorem inv_initialState : Inv initialState :=
  inv_of_blank _ (fun i j => initializeBoard_apply _ i j) rfl rfl

theorem inv_resetHandler (s s' : GameState) (resp : Response)
    (h : resetHandler s = some (s', resp)) : Inv s' := by
  simp only [resetHandler, Option.some.injEq, Prod.mk.injEq] at h
  obtain ⟨rfl, -⟩ := h
  exact inv_of_blank _ (fun i j => initializeBoard_apply _ i j) rfl rfl

theorem inv_makeMoveHandler (s s' : GameState) (row col : String) (resp : Response)
    (hinv : Inv s) (h : makeMoveHandler s row col = some (s', resp)) : Inv s' := by
  rcases makeMoveHandler_cases s row col with ⟨-, he⟩ | ⟨-, -, he⟩ | ⟨-, -, -, -, he⟩ |
    ⟨r, c, hact, -, -, -, -, -, -, hbr⟩
  · rw [he] at h; cases h; exact hinv
  · rw [he] at h; cases h; exact hinv
  · rw [he] at h; cases h; exact hinv
  · obtain ⟨hnx, hno, -⟩ := hinv.active hact
    rcases hbr with ⟨hw, he⟩ | ⟨hw, hf, he⟩ | ⟨hw, hf, he⟩
    · rw [he] at h; cases h
      refine ⟨?_, ?_, ?_⟩
      · rw [updateScores_currentPlayer]; exact hinv.player
      · rw [updateScores_gameActive]; intro hc; exact absurd hc Bool.false_ne_true
      · intro _
        rw [updateScores_board]
        have hl := (checkWinner_iff _ _).1 hw
        rcases hinv.player with hp | hp
        · exact Or.inl (by rw [← hp]; exact hl)
        · exact Or.inr (Or.inl (by rw [← hp]; exact hl))
    · rw [he] at h; cases h
      refine ⟨hinv.player, ?_, ?_⟩
      · intro hc; exact absurd hc Bool.false_ne_true
      · intro _; exact Or.inr (Or.inr ((isBoardFull_iff _).1 hf))
    · rw [he] at h; cases h
      have hnl : ¬ HasLine (s.board.set r c s.currentPlayer) s.currentPlayer := by
        rw [← checkWinner_iff, hw]; decide
      have hnf : ¬ NoEmpty (s.board.set r c s.currentPlayer) := by
        rw [← isBoardFull_iff, hf]; decide
      refine ⟨?_, ?_, ?_⟩
      · rw [switchPlayer_currentPlayer]
        split
        · exact Or.inr rfl
        · exact Or.inl rfl
      · intro _
        rw [switchPlayer_board]
        refine ⟨?_, ?_, hnf⟩
        · rcases hinv.player with hp | hp
          · rw [hp] at hnl; rw [hp]; exact hnl
          · rw [hp]; exact fun hl => hnx (hasLine_set_other _ _ _ _ _ (by decide) hl)
        · rcases hinv.player with hp | hp
          · rw [hp]; exact fun hl => hno (hasLine_set_other _ _ _ _ _ (by decide) hl)
          · rw [hp] at hnl; rw [hp]; exact hnl
      · rw [switchPlayer_gameActive]
        intro hc
        exact absurd (hact.symm.trans hc) (by decide)

theorem inv_of_reachable {s : GameState} (h : Reachable s) : Inv s := by
  induction h with
  | init => exact inv_initialState
  | step req _ hstep ih =>
    cases req with
    | makeMove row col => exact inv_makeMoveHandler _ _ row col _ ih hstep
    | reset => exact inv_resetHandler _ _ _ hstep

theorem reachable_serve {s : GameState} (hs : Reachable s) (reqs : List Request) :
    ∀ p, serve s reqs = some p → Reachable p.1 := by
  induction reqs generalizing s with
  | nil =>
    intro p hp
    simp only [serve, Option.some.injEq] at hp
    subst hp
    exact hs
  | cons req rest ih =>
    intro p hp
    unfold serve at hp
    cases hh : handle s req with
    | none => rw [hh] at hp; cases hp
    | some q =>
      rw [hh] at hp
      obtain ⟨s1, resp⟩ := q
      have hs1 : Reachable s1 := Reachable.step req hs hh
      cases hrest : serve s1 rest with
      | none => simp [hrest] at hp
      | some q2 =>
        have := ih hs1 q2 hrest
        simp only [hrest, Option.some.injEq] at hp
        subst hp
        exact this

theorem reachable_run {s : GameState} (hs : Reachable s) (reqs : List Request) :
    Reachable (run s reqs) := by
  unfold run
  cases h : serve s reqs with
  | none => exact hs
  | some p => exact reachable_serve hs reqs p h

/-- A JSON response of `makeMoveHandler` is the snapshot of the state after the
request, with the message of the branch taken. -/
theorem makeMoveHandler_json (s s' : GameState) (row col : String) (g : GameResponse)
    (h : makeMoveHandler s row col = some (s', .json g)) :
    ¬ Rejects s row col ∧
    ((HasLine s'.board s.currentPlayer ∧
        g = snapshot s' ("Player " ++ s.currentPlayer ++ " wins!")) ∨
     (¬ HasLine s'.board s.currentPlayer ∧ NoEmpty s'.board ∧
        g = snapshot s' "It's a draw!") ∨
     (¬ HasLine s'.board s.currentPlayer ∧ ¬ NoEmpty s'.board ∧ g = snapshot s' "")) := by
  rcases makeMoveHandler_cases s row col with ⟨-, he⟩ | ⟨-, -, he⟩ | ⟨-, -, -, -, he⟩ |
    ⟨r, c, hact, hrow, hcol, -, -, -, hv, hbr⟩
  · rw [he] at h; cases h
  · rw [he] at h; cases h
  · rw [he] at h; cases h
  · have hr : ¬ Rejects s row col := by
      rintro (h1 | h1 | h1 | h1)
      · rw [hact] at h1; exact absurd h1 (by decide)
      · exact hrow h1
      · exact hcol h1
      · rw [hv] at h1; exact absurd h1 (by decide)
    refine ⟨hr, ?_⟩
    rcases hbr with ⟨hw, he⟩ | ⟨hw, hf, he⟩ | ⟨hw, hf, he⟩
    · rw [he] at h
      simp only [sendJSONResponse, Option.some.injEq, Prod.mk.injEq, Response.json.injEq] at h
      obtain ⟨rfl, rfl⟩ := h
      refine Or.inl ⟨?_, rfl⟩
      rw [updateScores_board]
      exact (checkWinner_iff _ _).1 hw
    · rw [he] at h
      simp only [sendJSONResponse, Option.some.injEq, Prod.mk.injEq, Response.json.injEq] at h
      obtain ⟨rfl, rfl⟩ := h
      refine Or.inr (Or.inl ⟨?_, (isBoardFull_iff _).1 hf, rfl⟩)
      rw [← checkWinner_iff, hw]; decide
    · rw [he] at h
      simp only [sendJSONResponse, Option.some.injEq, Prod.mk.injEq, Response.json.injEq] at h
      obtain ⟨rfl, rfl⟩ := h
      refine Or.inr (Or.inr ⟨?_, ?_, rfl⟩)
      · rw [switchPlayer_board, ← checkWinner_iff, hw]; decide
      · rw [switchPlayer_board, ← isBoardFull_iff, hf]; decide

/-- A rejection of `makeMoveHandler` is an `http.Error` with status 400 and the
state is as before. -/
theorem makeMoveHandler_rejects (s : GameState) (row col : String) (h : Rejects s row col) :
    ∃ body, makeMoveHandler s row col = some (s, .error body StatusBadRequest) := by
  rcases makeMoveHandler_cases s row col with ⟨-, he⟩ | ⟨-, -, he⟩ | ⟨-, -, -, -, he⟩ |
    ⟨r, c, hact, hrow, hcol, -, -, -, hv, -⟩
  · exact ⟨_, he⟩
  · exact ⟨_, he⟩
  · exact ⟨_, he⟩
  · exfalso
    rcases h with h1 | h1 | h1 | h1
    · rw [hact] at h1; exact absurd h1 (by decide)
    · exact hrow h1
    · exact hcol h1
    · rw [hv] at h1; exact absurd h1 (by decide)

theorem makeMoveHandler_returns (s : GameState) (row col : String) :
    ∃ s' resp, makeMoveHandler s row col = some (s', resp) := by
  rcases makeMoveHandler_cases s row col with ⟨-, he⟩ | ⟨-, -, he⟩ | ⟨-, -, -, -, he⟩ |
    ⟨r, c, -, -, -, -, -, -, -, ⟨-, he⟩ | ⟨-, -, he⟩ | ⟨-, -, he⟩⟩
  all_goals exact ⟨_, _, he⟩

theorem handle_json (s s' : GameState) (req : Request) (g : GameResponse)
    (h : handle s req = some (s', .json g)) :
    g.Board = s'.board ∧ g.CurrentPlayer = s'.currentPlayer ∧
      g.GameActive = s'.gameActive ∧ g.ScoreX = s'.scoreX ∧ g.ScoreO = s'.scoreO := by
  cases req with
  | reset =>
    simp only [handle, resetHandler, sendJSONResponse, Option.some.injEq, Prod.mk.injEq,
      Response.json.injEq] at h
    obtain ⟨rfl, rfl⟩ := h
    exact ⟨rfl, rfl, rfl, rfl, rfl⟩
  | makeMove row col =>
    obtain ⟨-, hg⟩ := makeMoveHandler_json s s' row col g h
    rcases hg with ⟨-, rfl⟩ | ⟨-, -, rfl⟩ | ⟨-, -, rfl⟩
    all_goals exact ⟨rfl, rfl, rfl, rfl, rfl⟩

theorem shape_of_reachable {s : GameState} (h : Reachable s) :
    Shape s.board s.currentPlayer := by
  refine ⟨?_, (inv_of_reachable h).player⟩
  induction h with
  | init => intro i j; exact Or.inr (Or.inr (initializeBoard_apply _ i j))
  | @step s s' resp req hs hstep ih =>
    cases req with
    | reset =>
      simp only [handle, resetHandler, Option.some.injEq, Prod.mk.injEq] at hstep
      obtain ⟨rfl, -⟩ := hstep
      intro i j; exact Or.inr (Or.inr (initializeBoard_apply _ i j))
    | makeMove row col =>
      rcases makeMoveHandler_board_cases s s' row col resp hstep with rfl | ⟨r, c, -, hb⟩
      · exact ih
      · intro i j
        rw [hb]
        by_cases hij : i = r ∧ j = c
        · obtain ⟨rfl, rfl⟩ := hij
          rw [set_self]
          rcases (inv_of_reachable hs).player with hp | hp
          · exact Or.inl hp
          · exact Or.inr (Or.inl hp)
        · rw [set_other _ _ _ _ _ _ hij]
          exact ih i j

theorem linesOfPlayer_of_blank (s : GameState) (hb : ∀ i j : Fin 3, s.board i j = " ") :
    LinesOfPlayer s :=
  fun m hm hl => absurd hl (not_hasLine_of_blank _ m hm hb)

theorem linesOfPlayer_makeMoveHandler (s s' : GameState) (row col : String) (resp : Response)
    (hs : LinesOfPlayer s) (h : makeMoveHandler s row col = some (s', resp)) :
    LinesOfPlayer s' := by
  have key : ∀ (r c : Fin 3) (m : String), m ≠ " " →
      HasLine (s.board.set r c s.currentPlayer) m → m = s.currentPlayer := by
    intro r c m hm hl
    by_contra hne
    exact hne (hs m hm (hasLine_set_other _ _ _ _ _ (fun h => hne h.symm) hl))
  rcases makeMoveHandler_cases s row col with ⟨-, he⟩ | ⟨-, -, he⟩ | ⟨-, -, -, -, he⟩ |
    ⟨r, c, -, -, -, -, -, -, -, hbr⟩
  · rw [he] at h; cases h; exact hs
  · rw [he] at h; cases h; exact hs
  · rw [he] at h; cases h; exact hs
  · rcases hbr with ⟨-, he⟩ | ⟨-, -, he⟩ | ⟨hw, -, he⟩
    · rw [he] at h; cases h
      intro m hm hl
      rw [updateScores_board] at hl
      rw [updateScores_currentPlayer]
      exact key r c m hm hl
    · rw [he] at h; cases h
      intro m hm hl
      exact key r c m hm hl
    · rw [he] at h; cases h
      intro m hm hl
      rw [switchPlayer_board] at hl
      have hmc := key r c m hm hl
      subst hmc
      have hl' : HasLine (s.board.set r c s.currentPlayer) s.currentPlayer := hl
      rw [← checkWinner_iff, hw] at hl'
      exact absurd hl' (by decide)

theorem linesOfPlayer_of_reachable {s : GameState} (h : Reachable s) : LinesOfPlayer s := by
  induction h with
  | init => exact linesOfPlayer_of_blank _ (fun i j => initializeBoard_apply _ i j)
  | @step s s' resp req _ hstep ih =>
    cases req with
    | reset =>
      simp only [handle, resetHandler, Option.some.injEq, Prod.mk.injEq] at hstep
      obtain ⟨rfl, -⟩ := hstep
      exact linesOfPlayer_of_blank _ (fun i j => initializeBoard_apply _ i j)
    | makeMove row col => exact linesOfPlayer_makeMoveHandler s s' row col resp ih hstep

/-! ## The scan of `parseInt` -/

theorem skipSpace_eq (cs : List Char) :
    skipSpace cs = none ∨ skipSpace cs = some (dropLeadingSpace cs) := by
  induction cs with
  | nil => exact Or.inr rfl
  | cons c cs ih =>
    unfold skipSpace
    by_cases hn : c = '\n'
    · exact Or.inl (by simp [hn])
    · by_cases hsp : isSpace c = true
      · have hd : dropLeadingSpace (c :: cs) = dropLeadingSpace cs := by
          simp [dropLeadingSpace, List.dropWhile_cons, hsp, hn]
        simp only [hn, if_false, hsp, if_true, hd]
        exact ih
      · have hd : dropLeadingSpace (c :: cs) = c :: cs := by
          simp [dropLeadingSpace, List.dropWhile_cons, hsp]
        simp only [hn, if_false, hsp, hd]
        exact Or.inr (by simp)

theorem scanInt_eq_none (cs : List Char) (h : startsWithInteger cs = false) :
    scanInt cs = none := by
  cases cs with
  | nil => rfl
  | cons c rest =>
    simp only [startsWithInteger, Bool.or_eq_false_iff, Bool.and_eq_false_iff] at h
    obtain ⟨hc, hs⟩ := h
    have htok : (if c = '-' ∨ c = '+' then rest else c :: rest).takeWhile Char.isDigit = [] := by
      by_cases hsign : c = '-' ∨ c = '+'
      · rw [if_pos hsign]
        rcases hs with hs | hs
        · exfalso
          rcases hsign with rfl | rfl <;> simp at hs
        · cases rest with
          | nil => rfl
          | cons d ds =>
            simp only at hs
            simp [List.takeWhile_cons, hs]
      · rw [if_neg hsign]
        simp [List.takeWhile_cons, hc]
    simp only [scanInt, htok, if_true]

theorem parseInt_eq_zero (s : String)
    (h : startsWithInteger (dropLeadingSpace s.toList) = false) : parseInt s = 0 := by
  unfold parseInt
  rcases skipSpace_eq s.toList with hk | hk
  · rw [hk]
  · rw [hk]
    simp only [scanInt_eq_none _ h, Option.getD_none]

/-! ## Counting marks -/

theorem countMark_set (b : Grid) (r c : Fin 3) (v m : String) :
    countMark (b.set r c v) m + (if b r c = m then 1 else 0) =
      countMark b m + (if v = m then 1 else 0) := by
  fin_cases r <;> fin_cases c <;>
    simp [countMark, cells, Grid.set] <;> omega

theorem countMark_le (b : Grid) (m : String) : countMark b m ≤ 9 := by
  have h : ∀ x : String, (if x = m then 1 else 0) ≤ 1 := by
    intro x; split <;> omega
  have h00 := h (b 0 0)
  have h01 := h (b 0 1)
  have h02 := h (b 0 2)
  have h10 := h (b 1 0)
  have h11 := h (b 1 1)
  have h12 := h (b 1 2)
  have h20 := h (b 2 0)
  have h21 := h (b 2 1)
  have h22 := h (b 2 2)
  simp only [countMark, cells, List.map_cons, List.map_nil, List.sum_cons, List.sum_nil]
  omega

theorem countMark_blank (b : Grid) (hb : ∀ i j : Fin 3, b i j = " ") :
    countMark b " " = 9 ∧ countMark b "X" = 0 ∧ countMark b "O" = 0 := by
  simp [countMark, cells, hb]

theorem balanced_of_blank (s : GameState) (hb : ∀ i j : Fin 3, s.board i j = " ")
    (hp : s.currentPlayer = "X") : Balanced s := by
  obtain ⟨-, hx, ho⟩ := countMark_blank s.board hb
  exact ⟨Or.inl (by rw [hx, ho]), fun _ => Or.inl ⟨hp, by rw [hx, ho]⟩⟩

theorem balanced_makeMoveHandler (s s' : GameState) (row col : String) (resp : Response)
    (hs : Balanced s) (h : makeMoveHandler s row col = some (s', resp)) : Balanced s' := by
  rcases makeMoveHandler_cases s row col with ⟨-, he⟩ | ⟨-, -, he⟩ | ⟨-, -, -, -, he⟩ |
    ⟨r, c, hact, -, -, -, -, hcell, -, hbr⟩
  · rw [he] at h; cases h; exact hs
  · rw [he] at h; cases h; exact hs
  · rw [he] at h; cases h; exact hs
  · have hX := countMark_set s.board r c s.currentPlayer "X"
    have hO := countMark_set s.board r c s.currentPlayer "O"
    rw [hcell] at hX hO
    simp only [show ¬ (" " : String) = "X" by decide, show ¬ (" " : String) = "O" by decide,
      if_false, Nat.add_zero] at hX hO
    have hXO : ¬ ("X" : String) = "O" := by decide
    have hOX : ¬ ("O" : String) = "X" := by decide
    have counts :
        (countMark (s.board.set r c s.currentPlayer) "X" =
            countMark (s.board.set r c s.currentPlayer) "O" ∨
          countMark (s.board.set r c s.currentPlayer) "X" =
            countMark (s.board.set r c s.currentPlayer) "O" + 1) ∧
        ((s.currentPlayer = "X" ∧ countMark (s.board.set r c s.currentPlayer) "X" =
            countMark (s.board.set r c s.currentPlayer) "O" + 1) ∨
          (s.currentPlayer = "O" ∧ countMark (s.board.set r c s.currentPlayer) "X" =
            countMark (s.board.set r c s.currentPlayer) "O")) := by
      rcases hs.2 hact with ⟨hp, hc⟩ | ⟨hp, hc⟩
      · rw [hp] at hX hO ⊢
        simp only [if_true, if_neg hXO] at hX hO
        exact ⟨Or.inr (by omega), Or.inl ⟨rfl, by omega⟩⟩
      · rw [hp] at hX hO ⊢
        simp only [if_true, if_neg hOX] at hX hO
        exact ⟨Or.inl (by omega), Or.inr ⟨rfl, by omega⟩⟩
    rcases hbr with ⟨-, he⟩ | ⟨-, -, he⟩ | ⟨-, -, he⟩
    · rw [he] at h; cases h
      refine ⟨?_, ?_⟩
      · rw [updateScores_board]; exact counts.1
      · rw [updateScores_gameActive]; intro hc; exact absurd hc Bool.false_ne_true
    · rw [he] at h; cases h
      exact ⟨counts.1, fun hc => absurd hc Bool.false_ne_true⟩
    · rw [he] at h; cases h
      refine ⟨?_, fun _ => ?_⟩
      · rw [switchPlayer_board]; exact counts.1
      · rw [switchPlayer_board, switchPlayer_currentPlayer]
        rcases counts.2 with ⟨hp, hc⟩ | ⟨hp, hc⟩
        · exact Or.inr ⟨by simp [hp], hc⟩
        · exact Or.inl ⟨by simp [hp], hc⟩

theorem balanced_of_reachable {s : GameState} (h : Reachable s) : Balanced s := by
  induction h with
  | init => exact balanced_of_blank _ (fun i j => initializeBoard_apply _ i j) rfl
  | @step s s' resp req _ hstep ih =>
    cases req with
    | reset =>
      simp only [handle, resetHandler, Option.some.injEq, Prod.mk.injEq] at hstep
      obtain ⟨rfl, -⟩ := hstep
      exact balanced_of_blank _ (fun i j => initializeBoard_apply _ i j) rfl
    | makeMove row col => exact balanced_makeMoveHandler s s' row col resp ih hstep

theorem noEmpty_of_countMark (b : Grid) (h : countMark b " " = 0) : NoEmpty b := by
  simp only [countMark, cells, List.map_cons, List.map_nil, List.sum_cons, List.sum_nil] at h
  have z : ∀ x : String, (if x = " " then 1 else 0) = 0 → x ≠ " " := by
    intro x hx hxe
    rw [if_pos hxe] at hx
    exact absurd hx (by decide)
  unfold NoEmpty
  simp only [forall_fin_three]
  refine ⟨⟨?_, ?_, ?_⟩, ⟨?_, ?_, ?_⟩, ⟨?_, ?_, ?_⟩⟩ <;> (apply z; omega)

theorem player_makeMoveHandler (s s' : GameState) (row col : String) (resp : Response)
    (hp : s.currentPlayer = "X" ∨ s.currentPlayer = "O")
    (h : makeMoveHandler s row col = some (s', resp)) :
    s'.currentPlayer = "X" ∨ s'.currentPlayer = "O" := by
  rcases makeMoveHandler_cases s row col with ⟨-, he⟩ | ⟨-, -, he⟩ | ⟨-, -, -, -, he⟩ |
    ⟨r, c, -, -, -, -, -, -, -, ⟨-, he⟩ | ⟨-, -, he⟩ | ⟨-, -, he⟩⟩
  · rw [he] at h; cases h; exact hp
  · rw [he] at h; cases h; exact hp
  · rw [he] at h; cases h; exact hp
  · rw [he] at h; cases h; rw [updateScores_currentPlayer]; exact hp
  · rw [he] at h; cases h; exact hp
  · rw [he] at h; cases h
    rw [switchPlayer_currentPlayer]
    split
    · exact Or.inr rfl
    · exact Or.inl rfl

/-- The effect of one move request on the number of empty cells. -/
theorem makeMoveHandler_countEmpty (s s' : GameState) (row col : String) (resp : Response)
    (hp : s.currentPlayer = "X" ∨ s.currentPlayer = "O")
    (h : makeMoveHandler s row col = some (s', resp)) :
    (resp.status = 200 → countMark s'.board " " + 1 = countMark s.board " ") ∧
    (resp.status ≠ 200 → s' = s) ∧
    (FullIsOver s → FullIsOver s') := by
  have hne : ¬ s.currentPlayer = " " := by
    rcases hp with hp | hp <;> rw [hp] <;> decide
  rcases makeMoveHandler_cases s row col with ⟨-, he⟩ | ⟨-, -, he⟩ | ⟨-, -, -, -, he⟩ |
    ⟨r, c, -, -, -, -, -, hcell, -, hbr⟩
  · rw [he] at h; cases h
    exact ⟨fun hst => by simp [Response.status, StatusBadRequest] at hst, fun _ => rfl,
      fun hq => hq⟩
  · rw [he] at h; cases h
    exact ⟨fun hst => by simp [Response.status, StatusBadRequest] at hst, fun _ => rfl,
      fun hq => hq⟩
  · rw [he] at h; cases h
    exact ⟨fun hst => by simp [Response.status, StatusBadRequest] at hst, fun _ => rfl,
      fun hq => hq⟩
  · have hE := countMark_set s.board r c s.currentPlayer " "
    rw [hcell] at hE
    simp only [if_true, if_neg hne, Nat.add_zero] at hE
    rcases hbr with ⟨-, he⟩ | ⟨-, -, he⟩ | ⟨-, hf, he⟩
    · rw [he] at h; cases h
      refine ⟨fun _ => ?_, fun hst => absurd rfl hst, fun _ _ => ?_⟩
      · rw [updateScores_board]; exact hE
      · rw [updateScores_gameActive]
    · rw [he] at h; cases h
      exact ⟨fun _ => hE, fun hst => absurd rfl hst, fun _ _ => rfl⟩
    · rw [he] at h; cases h
      refine ⟨fun _ => ?_, fun hst => absurd rfl hst, fun _ hz => ?_⟩
      · rw [switchPlayer_board]; exact hE
      · exfalso
        rw [switchPlayer_board] at hz
        have hfull := (isBoardFull_iff _).2 (noEmpty_of_countMark _ hz)
        rw [hf] at hfull
        exact absurd hfull (by decide)

theorem accepted_cons (resp : Response) (rs : List Response) :
    accepted (resp :: rs) = (if resp.status = 200 then 1 else 0) + accepted rs := by
  unfold accepted
  by_cases h : resp.status = 200
  · simp [List.filter_cons, h]; omega
  · simp [List.filter_cons, h]

/-- A list of move requests is served without a panic, and the accepted ones
are as many as the empty cells that got filled. -/
theorem serve_moves (reqs : List Request) :
    ∀ s : GameState, (s.currentPlayer = "X" ∨ s.currentPlayer = "O") → AllMoves reqs →
      ∃ s' rs, serve s reqs = some (s', rs) ∧
        accepted rs + countMark s'.board " " = countMark s.board " " ∧
        (FullIsOver s → FullIsOver s') := by
  induction reqs with
  | nil =>
    intro s _ _
    exact ⟨s, [], rfl, by simp [accepted], fun h => h⟩
  | cons req rest ih =>
    intro s hp hall
    obtain ⟨row, col, rfl⟩ := hall req (List.mem_cons_self _ _)
    obtain ⟨s1, resp, he⟩ := makeMoveHandler_returns s row col
    obtain ⟨hacc, hrej, hq⟩ := makeMoveHandler_countEmpty s s1 row col resp hp he
    obtain ⟨s', rs, hserve, hcount, hq'⟩ := ih s1 (player_makeMoveHandler s s1 row col resp hp he)
      (fun r hr => hall r (List.mem_cons_of_mem _ hr))
    refine ⟨s', resp :: rs, ?_, ?_, fun h => hq' (hq h)⟩
    · simp only [serve, handle, he, hserve]
    · rw [accepted_cons]
      by_cases hst : resp.status = 200
      · have := hacc hst
        rw [if_pos hst]; omega
      · have := hrej hst
        rw [if_neg hst, ← this]; omega

/-! ## The claims -/

/-- Claim C1: in every state reachable from the state set up by `main` by `makeMove` and
`reset` requests, `gameActive` is false if and only if some row, column or
diagonal holds three `"X"` or three `"O"`, or the board has no empty cell. -/
theorem reachable_gameActive_false_iff (s : GameState) (h : Reachable s) :
    s.gameActive = false ↔
      (HasLine s.board "X" ∨ HasLine s.board "O" ∨ NoEmpty s.board) := by
  have hinv := inv_of_reachable h
  constructor
  · exact hinv.over
  · intro hl
    by_contra hact
    have hact' : s.gameActive = true := by simpa using hact
    obtain ⟨hnx, hno, hnf⟩ := hinv.active hact'
    rcases hl with hl | hl | hl
    exacts [hnx hl, hno hl, hnf hl]

/-- Witness for C1: the state after Scenario A is reachable, the game is over
there, and the equivalence holds at it. -/
theorem reachable_gameActive_false_iff_witness :
    Reachable (run initialState scenarioA) ∧
      (run initialState scenarioA).gameActive = false ∧
      ((run initialState scenarioA).gameActive = false ↔
        (HasLine (run initialState scenarioA).board "X" ∨
          HasLine (run initialState scenarioA).board "O" ∨
          NoEmpty (run initialState scenarioA).board)) :=
  ⟨reachable_run Reachable.init scenarioA, by decide,
    reachable_gameActive_false_iff _ (reachable_run Reachable.init scenarioA)⟩

/-- Claim C2: in an active state, a valid move (non-empty strings parsing to a
cell `(r, c)` of the grid that is empty) after which some row, column or
diagonal holds three marks of the mover ends the game: `gameActive` becomes
false, the response is the snapshot with message `"Player <mark> wins!"`, and
`currentPlayer` is still the mover.  Scenario A: the five moves are accepted,
the last response carries `"Player X wins!"`, and then `gameActive = false`,
`scoreX = 1`. -/
theorem makeMove_win :
    (∀ (s : GameState) (row col : String) (r c : Fin 3),
      s.gameActive = true → row ≠ "" → col ≠ "" →
      parseInt row = (r.val : Int) → parseInt col = (c.val : Int) →
      s.board r c = " " →
      HasLine (s.board.set r c s.currentPlayer) s.currentPlayer →
      ∃ s' g, makeMoveHandler s row col = some (s', .json g) ∧
        g = snapshot s' ("Player " ++ s.currentPlayer ++ " wins!") ∧
        g.Message = "Player " ++ s.currentPlayer ++ " wins!" ∧
        s'.gameActive = false ∧ s'.currentPlayer = s.currentPlayer) ∧
    ((serve initialState scenarioA).map (fun p => p.2.map Response.status) =
        some [200, 200, 200, 200, 200] ∧
      ((lastResponse initialState scenarioA).bind Response.snapshot?).map
        (fun g => (g.Message, g.GameActive, g.ScoreX)) =
        some ("Player X wins!", false, 1) ∧
      (run initialState scenarioA).gameActive = false ∧
      (run initialState scenarioA).scoreX = 1 ∧
      (run initialState scenarioA).board 0 0 = "X" ∧
      (run initialState scenarioA).board 0 1 = "X" ∧
      (run initialState scenarioA).board 0 2 = "X") := by
  refine ⟨?_, by decide, by decide, by decide, by decide, by decide, by decide, by decide⟩
  intro s row col r c hact hrow hcol hr hc hcell hl
  have hw := (checkWinner_iff _ _).2 hl
  refine ⟨_, _, makeMoveHandler_win s row col r c hact hrow hcol hr hc hcell hw, ?_, rfl, ?_, ?_⟩
  · simp [snapshot]
  · rw [updateScores_gameActive]
  · rw [updateScores_currentPlayer]

/-- Witness for C2: the last move of Scenario A, X to (0,2). -/
theorem makeMove_win_witness :
    HasLine (beforeWinA.board.set 0 2 beforeWinA.currentPlayer) beforeWinA.currentPlayer ∧
    ∃ s' g, makeMoveHandler beforeWinA "0" "2" = some (s', .json g) ∧
      g = snapshot s' ("Player " ++ beforeWinA.currentPlayer ++ " wins!") ∧
      g.Message = "Player " ++ beforeWinA.currentPlayer ++ " wins!" ∧
      s'.gameActive = false ∧ s'.currentPlayer = beforeWinA.currentPlayer :=
  ⟨Or.inl ⟨0, by decide, by decide, by decide⟩,
    makeMove_win.1 beforeWinA "0" "2" 0 2 (by decide) (by decide) (by decide) (by decide)
      (by decide) (by decide) (Or.inl ⟨0, by decide, by decide, by decide⟩)⟩

/-- Claim C3: in an active state, a valid move after which no row, column or
diagonal holds three marks of the mover and no cell is empty ends the game
as a draw: `gameActive` becomes false, the response is the snapshot with
message `"It's a draw!"`, and both scores are as before.  Scenario B: the
nine alternating moves are accepted, the last response carries
`"It's a draw!"`, and then `gameActive = false`. -/
theorem makeMove_draw :
    (∀ (s : GameState) (row col : String) (r c : Fin 3),
      s.gameActive = true → row ≠ "" → col ≠ "" →
      parseInt row = (r.val : Int) → parseInt col = (c.val : Int) →
      s.board r c = " " →
      ¬ HasLine (s.board.set r c s.currentPlayer) s.currentPlayer →
      NoEmpty (s.board.set r c s.currentPlayer) →
      ∃ s' g, makeMoveHandler s row col = some (s', .json g) ∧
        g = snapshot s' "It's a draw!" ∧ g.Message = "It's a draw!" ∧
        s'.gameActive = false ∧ s'.scoreX = s.scoreX ∧ s'.scoreO = s.scoreO) ∧
    ((serve initialState scenarioB).map (fun p => p.2.map Response.status) =
        some [200, 200, 200, 200, 200, 200, 200, 200, 200] ∧
      ((lastResponse initialState scenarioB).bind Response.snapshot?).map
        (fun g => (g.Message, g.GameActive)) = some ("It's a draw!", false) ∧
      (run initialState scenarioB).gameActive = false) := by
  refine ⟨?_, by decide, by decide, by decide⟩
  intro s row col r c hact hrow hcol hr hc hcell hnl hf
  have hw : checkWinner (s.board.set r c s.currentPlayer) s.currentPlayer = false := by
    rw [← Bool.not_eq_true, checkWinner_iff]; exact hnl
  have hf' := (isBoardFull_iff _).2 hf
  exact ⟨_, _, makeMoveHandler_draw s row col r c hact hrow hcol hr hc hcell hw hf',
    rfl, rfl, rfl, rfl, rfl⟩

/-- Witness for C3: the last move of Scenario B, X to (2,2). -/
theorem makeMove_draw_witness :
    beforeDrawB.gameActive = true ∧ beforeDrawB.board 2 2 = " " ∧
    ¬ HasLine (beforeDrawB.board.set 2 2 beforeDrawB.currentPlayer)
        beforeDrawB.currentPlayer ∧
    NoEmpty (beforeDrawB.board.set 2 2 beforeDrawB.currentPlayer) ∧
    ∃ s' g, makeMoveHandler beforeDrawB "2" "2" = some (s', .json g) ∧
      g = snapshot s' "It's a draw!" ∧ g.Message = "It's a draw!" ∧
      s'.gameActive = false ∧ s'.scoreX = beforeDrawB.scoreX ∧
      s'.scoreO = beforeDrawB.scoreO :=
  have hnl : ¬ HasLine (beforeDrawB.board.set 2 2 beforeDrawB.currentPlayer)
      beforeDrawB.currentPlayer := by
    rw [← checkWinner_iff]; decide
  have hf : NoEmpty (beforeDrawB.board.set 2 2 beforeDrawB.currentPlayer) := by
    rw [← isBoardFull_iff]; decide
  ⟨by decide, by decide, hnl, hf,
    makeMove_draw.1 beforeDrawB "2" "2" 2 2 (by decide) (by decide) (by decide) (by decide)
      (by decide) (by decide) hnl hf⟩

/-- Claim C4: in an active state, a valid move that neither completes a line of
the mover nor fills the board flips `currentPlayer` (`"X"` becomes `"O"`,
`"O"` becomes `"X"`), keeps `gameActive = true`, leaves both scores as they
were, and is answered by the snapshot with the empty message. -/
theorem makeMove_continue (s : GameState) (row col : String) (r c : Fin 3)
    (hact : s.gameActive = true) (hrow : row ≠ "") (hcol : col ≠ "")
    (hr : parseInt row = (r.val : Int)) (hc : parseInt col = (c.val : Int))
    (hcell : s.board r c = " ")
    (hnl : ¬ HasLine (s.board.set r c s.currentPlayer) s.currentPlayer)
    (hnf : ¬ NoEmpty (s.board.set r c s.currentPlayer)) :
    ∃ s' g, makeMoveHandler s row col = some (s', .json g) ∧
      g = snapshot s' "" ∧ g.Message = "" ∧
      s'.currentPlayer = (if s.currentPlayer = "X" then "O" else "X") ∧
      (s.currentPlayer = "X" → s'.currentPlayer = "O") ∧
      (s.currentPlayer = "O" → s'.currentPlayer = "X") ∧
      s'.gameActive = true ∧ s'.scoreX = s.scoreX ∧ s'.scoreO = s.scoreO := by
  have hw : checkWinner (s.board.set r c s.currentPlayer) s.currentPlayer = false := by
    rw [← Bool.not_eq_true, checkWinner_iff]; exact hnl
  have hf : isBoardFull (s.board.set r c s.currentPlayer) = false := by
    rw [← Bool.not_eq_true, isBoardFull_iff]; exact hnf
  refine ⟨_, _, makeMoveHandler_continue s row col r c hact hrow hcol hr hc hcell hw hf,
    rfl, rfl, ?_, ?_, ?_, ?_, ?_, ?_⟩
  · rw [switchPlayer_currentPlayer]
  · intro hx; rw [switchPlayer_currentPlayer]; simp [hx]
  · intro ho; rw [switchPlayer_currentPlayer]; simp [ho]
  · rw [switchPlayer_gameActive]; exact hact
  · rw [switchPlayer_scoreX]
  · rw [switchPlayer_scoreO]

/-- Witness for C4: the opening move X to (0,0), after which O is to move. -/
theorem makeMove_continue_witness :
    ∃ s' g, makeMoveHandler initialState "0" "0" = some (s', .json g) ∧
      g = snapshot s' "" ∧ g.Message = "" ∧
      s'.currentPlayer = (if initialState.currentPlayer = "X" then "O" else "X") ∧
      (initialState.currentPlayer = "X" → s'.currentPlayer = "O") ∧
      (initialState.currentPlayer = "O" → s'.currentPlayer = "X") ∧
      s'.gameActive = true ∧ s'.scoreX = initialState.scoreX ∧
      s'.scoreO = initialState.scoreO :=
  makeMove_continue initialState "0" "0" 0 0 (by decide) (by decide) (by decide) (by decide)
    (by decide) (by decide) (by rw [← checkWinner_iff]; decide)
    (by rw [← isBoardFull_iff]; decide)

/-- Claim C5: in an active state, after a valid move to `(r, c)` that cell holds
the mark of the player whose turn it was and each of the other eight cells
is as before; and whatever the request, `makeMoveHandler` never changes a
cell that holds `"X"` or `"O"`. -/
theorem makeMove_board_frame :
    (∀ (s : GameState) (row col : String) (r c : Fin 3),
      s.gameActive = true → row ≠ "" → col ≠ "" →
      parseInt row = (r.val : Int) → parseInt col = (c.val : Int) →
      s.board r c = " " →
      ∃ s' resp, makeMoveHandler s row col = some (s', resp) ∧
        s'.board r c = s.currentPlayer ∧
        ∀ i j : Fin 3, ¬ (i = r ∧ j = c) → s'.board i j = s.board i j) ∧
    (∀ (s s' : GameState) (row col : String) (resp : Response),
      makeMoveHandler s row col = some (s', resp) →
      ∀ i j : Fin 3, s.board i j = "X" ∨ s.board i j = "O" →
        s'.board i j = s.board i j) := by
  constructor
  · intro s row col r c hact hrow hcol hr hc hcell
    obtain ⟨s', g, he, hb⟩ := makeMoveHandler_valid_board s row col r c hact hrow hcol hr hc hcell
    refine ⟨s', _, he, ?_, ?_⟩
    · rw [hb, set_self]
    · intro i j hij
      rw [hb, set_other _ _ _ _ _ _ hij]
  · intro s s' row col resp he i j hij
    rcases makeMoveHandler_board_cases s s' row col resp he with rfl | ⟨r, c, hcell, hb⟩
    · rfl
    · have hne : ¬ (i = r ∧ j = c) := by
        rintro ⟨rfl, rfl⟩
        rw [hcell] at hij
        revert hij
        decide
      rw [hb, set_other _ _ _ _ _ _ hne]

/-- Witness for C5: from the state before the last move of Scenario A, X moves
to (1,0); and the X already at (0,0) stays when (0,0) is requested again. -/
theorem makeMove_board_frame_witness :
    (∃ s' resp, makeMoveHandler beforeWinA "1" "0" = some (s', resp) ∧
      s'.board 1 0 = beforeWinA.currentPlayer ∧
      ∀ i j : Fin 3, ¬ (i = 1 ∧ j = 0) → s'.board i j = beforeWinA.board i j) ∧
    (∀ s' resp, makeMoveHandler beforeWinA "0" "0" = some (s', resp) →
      s'.board 0 0 = beforeWinA.board 0 0) :=
  ⟨makeMove_board_frame.1 beforeWinA "1" "0" 1 0 (by decide) (by decide) (by decide)
      (by decide) (by decide) (by decide),
    fun s' resp he => makeMove_board_frame.2 beforeWinA s' "0" "0" resp he 0 0
      (Or.inl (by decide))⟩

/-- Claim C6: in an active state, a request with non-empty coordinate strings
whose parsed row or column is outside `0..2`, or whose parsed cell is not
empty, is rejected with `http.Error(w, "Invalid move", 400)` and the state
(board, `currentPlayer`, `gameActive`, `scoreX`, `scoreO`) is returned as it
was. -/
theorem makeMove_invalid (s : GameState) (row col : String)
    (hact : s.gameActive = true) (hrow : row ≠ "") (hcol : col ≠ "")
    (h : ¬ (0 ≤ parseInt row ∧ parseInt row ≤ 2 ∧ 0 ≤ parseInt col ∧ parseInt col ≤ 2) ∨
      ∃ r c : Fin 3, parseInt row = (r.val : Int) ∧ parseInt col = (c.val : Int) ∧
        s.board r c ≠ " ") :
    makeMoveHandler s row col = some (s, .error "Invalid move" 400) := by
  have hv : isValidMove s.board (parseInt row) (parseInt col) = some false := by
    rcases h with h | ⟨r, c, hr, hc, hcell⟩
    · exact isValidMove_outrange _ _ _ (fun hin => h (by omega))
    · rw [hr, hc, isValidMove_inrange]
      simpa using hcell
  exact makeMoveHandler_invalid s row col hact hrow hcol hv

/-- Witness for C6: a move with `row=5` on the fresh board, and a move to the
occupied cell (0,0) after the opening move. -/
theorem makeMove_invalid_witness :
    makeMoveHandler initialState "5" "0" = some (initialState, .error "Invalid move" 400) ∧
    afterOpening.board 0 0 = "X" ∧
    makeMoveHandler afterOpening "0" "0" = some (afterOpening, .error "Invalid move" 400) :=
  ⟨makeMove_invalid initialState "5" "0" (by decide) (by decide) (by decide)
      (Or.inl (by decide)),
    by decide,
    makeMove_invalid afterOpening "0" "0" (by decide) (by decide) (by decide)
      (Or.inr ⟨0, 0, by decide, by decide, by decide⟩)⟩

/-- Claim C7: when `gameActive` is false, every request (any two strings) is
rejected with `http.Error(w, "Game over", 400)` and the state is returned as
it was. -/
theorem makeMove_gameOver (s : GameState) (row col : String)
    (hact : s.gameActive = false) :
    makeMoveHandler s row col = some (s, .error "Game over" 400) :=
  makeMoveHandler_gameOver s row col hact

/-- Witness for C7: after Scenario A a move to the empty cell (1,0), a request
with missing coordinates and an unparsable request are all rejected. -/
theorem makeMove_gameOver_witness :
    (run initialState scenarioA).board 1 0 = " " ∧
    makeMoveHandler (run initialState scenarioA) "1" "0" =
      some (run initialState scenarioA, .error "Game over" 400) ∧
    makeMoveHandler (run initialState scenarioA) "" "" =
      some (run initialState scenarioA, .error "Game over" 400) ∧
    makeMoveHandler (run initialState scenarioA) "abc" "7" =
      some (run initialState scenarioA, .error "Game over" 400) :=
  ⟨by decide, makeMove_gameOver _ "1" "0" (by decide), makeMove_gameOver _ "" "" (by decide),
    makeMove_gameOver _ "abc" "7" (by decide)⟩

/-- Claim C8: in every state, a request whose row string or column string is
empty (the parameter is missing) is rejected with status 400 and the state
is returned as it was, whatever the other coordinate is; the body of the
rejection is `"Invalid request parameters"` when the game is active. -/
theorem makeMove_missing (s : GameState) (row col : String) (h : row = "" ∨ col = "") :
    ∃ body, makeMoveHandler s row col = some (s, .error body 400) ∧
      (s.gameActive = true → body = "Invalid request parameters") := by
  by_cases hact : s.gameActive = true
  · exact ⟨_, makeMoveHandler_missing s row col hact h, fun _ => rfl⟩
  · exact ⟨_, makeMoveHandler_gameOver s row col (by simpa using hact),
      fun ha => absurd ha hact⟩

/-- Witness for C8: on the fresh board, a request without `row` and with
`col=1`. -/
theorem makeMove_missing_witness :
    ∃ body, makeMoveHandler initialState "" "1" = some (initialState, .error body 400) ∧
      (initialState.gameActive = true → body = "Invalid request parameters") :=
  makeMove_missing initialState "" "1" (Or.inl rfl)

/-- Claim C9: for every state and every pair of strings, `makeMoveHandler`
returns (it does not panic); its answer has a non-OK status, which is then
400, if and only if `gameActive` is false, or the row or column string is
empty, or `isValidMove(parseInt(row), parseInt(col))` is false, and then the
state is as before; in every other case the move is accepted: the strings
parse to a cell `(r, c)` of the grid that was empty, that cell now holds the
mark of the player whose turn it was, the other eight cells are as before,
and the answer is the JSON snapshot whose board, `currentPlayer`,
`gameActive`, `scoreX` and `scoreO` are those of the state after the move. -/
theorem makeMove_status (s : GameState) (row col : String) :
    ∃ s' resp, makeMoveHandler s row col = some (s', resp) ∧
      (resp.status ≠ 200 ↔ Rejects s row col) ∧
      (resp.status = 400 ↔ Rejects s row col) ∧
      (Rejects s row col → s' = s ∧ ∃ body, resp = .error body 400) ∧
      (¬ Rejects s row col →
        ∃ (r c : Fin 3) (g : GameResponse),
          parseInt row = (r.val : Int) ∧ parseInt col = (c.val : Int) ∧
          s.board r c = " " ∧ s'.board r c = s.currentPlayer ∧
          (∀ i j : Fin 3, ¬ (i = r ∧ j = c) → s'.board i j = s.board i j) ∧
          resp = .json g ∧ g.Board = s'.board ∧ g.CurrentPlayer = s'.currentPlayer ∧
          g.GameActive = s'.gameActive ∧ g.ScoreX = s'.scoreX ∧ g.ScoreO = s'.scoreO) := by
  rcases makeMoveHandler_cases s row col with ⟨hact, he⟩ | ⟨-, hm, he⟩ | ⟨-, -, -, hv, he⟩ |
    ⟨r, c, hact, hrow, hcol, hpr, hpc, hcell, hv, hbr⟩
  · have hr : Rejects s row col := Or.inl hact
    exact ⟨_, _, he, by simp [Response.status, StatusBadRequest, hr],
      by simp [Response.status, StatusBadRequest, hr], fun _ => ⟨rfl, _, rfl⟩,
      fun h => absurd hr h⟩
  · have hr : Rejects s row col := by
      rcases hm with hm | hm
      · exact Or.inr (Or.inl hm)
      · exact Or.inr (Or.inr (Or.inl hm))
    exact ⟨_, _, he, by simp [Response.status, StatusBadRequest, hr],
      by simp [Response.status, StatusBadRequest, hr], fun _ => ⟨rfl, _, rfl⟩,
      fun h => absurd hr h⟩
  · have hr : Rejects s row col := Or.inr (Or.inr (Or.inr hv))
    exact ⟨_, _, he, by simp [Response.status, StatusBadRequest, hr],
      by simp [Response.status, StatusBadRequest, hr], fun _ => ⟨rfl, _, rfl⟩,
      fun h => absurd hr h⟩
  · have hr : ¬ Rejects s row col := by
      rintro (h | h | h | h)
      · rw [hact] at h; exact absurd h (by decide)
      · exact hrow h
      · exact hcol h
      · rw [hv] at h; exact absurd h (by decide)
    have accept : ∀ (s' : GameState) (message : String),
        makeMoveHandler s row col = some (s', sendJSONResponse s' message) →
        s'.board = s.board.set r c s.currentPlayer →
        ∃ s' resp, makeMoveHandler s row col = some (s', resp) ∧
          (resp.status ≠ 200 ↔ Rejects s row col) ∧
          (resp.status = 400 ↔ Rejects s row col) ∧
          (Rejects s row col → s' = s ∧ ∃ body, resp = .error body 400) ∧
          (¬ Rejects s row col →
            ∃ (r c : Fin 3) (g : GameResponse),
              parseInt row = (r.val : Int) ∧ parseInt col = (c.val : Int) ∧
              s.board r c = " " ∧ s'.board r c = s.currentPlayer ∧
              (∀ i j : Fin 3, ¬ (i = r ∧ j = c) → s'.board i j = s.board i j) ∧
              resp = .json g ∧ g.Board = s'.board ∧ g.CurrentPlayer = s'.currentPlayer ∧
              g.GameActive = s'.gameActive ∧ g.ScoreX = s'.scoreX ∧
              g.ScoreO = s'.scoreO) := by
      intro s' message he hb
      refine ⟨s', _, he, by simp [Response.status, sendJSONResponse, hr],
        by simp [Response.status, sendJSONResponse, hr], fun h => absurd h hr,
        fun _ => ⟨r, c, snapshot s' message, hpr, hpc, hcell, ?_, ?_, rfl, rfl, rfl, rfl,
          rfl, rfl⟩⟩
      · rw [hb, set_self]
      · intro i j hij
        rw [hb, set_other _ _ _ _ _ _ hij]
    rcases hbr with ⟨-, he⟩ | ⟨-, -, he⟩ | ⟨-, -, he⟩
    · exact accept _ _ he (updateScores_board _ _)
    · exact accept _ _ he rfl
    · exact accept _ _ he (switchPlayer_board _)

/-- Witness for C9: on the fresh board a request with `row=5` is rejected with
status 400, and the opening move to (0,0) is accepted with status 200, puts
X at (0,0) and is answered by a snapshot showing X there. -/
theorem makeMove_status_witness :
    (makeMoveHandler initialState "5" "0").map (fun p => p.2.status) = some 400 ∧
    (makeMoveHandler initialState "0" "0").map
        (fun p => (p.2.status, p.1.board 0 0, p.2.snapshot?.map (fun g => g.Board 0 0))) =
      some (200, "X", some "X") ∧
    ∃ s' resp, makeMoveHandler initialState "0" "0" = some (s', resp) ∧
      (resp.status ≠ 200 ↔ Rejects initialState "0" "0") ∧
      (resp.status = 400 ↔ Rejects initialState "0" "0") ∧
      (Rejects initialState "0" "0" → s' = initialState ∧ ∃ body, resp = .error body 400) ∧
      (¬ Rejects initialState "0" "0" →
        ∃ (r c : Fin 3) (g : GameResponse),
          parseInt "0" = (r.val : Int) ∧ parseInt "0" = (c.val : Int) ∧
          initialState.board r c = " " ∧ s'.board r c = initialState.currentPlayer ∧
          (∀ i j : Fin 3, ¬ (i = r ∧ j = c) → s'.board i j = initialState.board i j) ∧
          resp = .json g ∧ g.Board = s'.board ∧ g.CurrentPlayer = s'.currentPlayer ∧
          g.GameActive = s'.gameActive ∧ g.ScoreX = s'.scoreX ∧ g.ScoreO = s'.scoreO) :=
  ⟨by decide, by decide, makeMove_status initialState "0" "0"⟩

/-- Claim C10, as amended: for every state whose `currentPlayer` is `"X"` or `"O"`
and whose scores are Go `int` values below the largest one, and for every
request (a move request with any two strings, or a reset), the handler
returns and `scoreX` afterwards is `scoreX + 1` if the request is an accepted
move by X after which a line holds three `"X"`, and `scoreX` otherwise;
symmetrically for `scoreO` and O.  So no score decreases, a win leaves the
other player's score alone, and a reset changes neither score. -/
theorem score_update (s : GameState) (req : Request)
    (hp : s.currentPlayer = "X" ∨ s.currentPlayer = "O")
    (hx : IsInt s.scoreX) (ho : IsInt s.scoreO)
    (hxm : s.scoreX < maxInt) (hom : s.scoreO < maxInt) :
    ∃ s' resp, handle s req = some (s', resp) ∧
      (WinningMoveBy "X" s req s' resp → s'.scoreX = s.scoreX + 1) ∧
      (¬ WinningMoveBy "X" s req s' resp → s'.scoreX = s.scoreX) ∧
      (WinningMoveBy "O" s req s' resp → s'.scoreO = s.scoreO + 1) ∧
      (¬ WinningMoveBy "O" s req s' resp → s'.scoreO = s.scoreO) ∧
      s.scoreX ≤ s'.scoreX ∧ s.scoreO ≤ s'.scoreO ∧
      (WinningMoveBy "X" s req s' resp → s'.scoreO = s.scoreO) ∧
      (WinningMoveBy "O" s req s' resp → s'.scoreX = s.scoreX) ∧
      (req = .reset → s'.scoreX = s.scoreX ∧ s'.scoreO = s.scoreO) := by
  cases req with
  | reset =>
    refine ⟨_, _, rfl, ?_, fun _ => rfl, ?_, fun _ => rfl, le_refl _, le_refl _,
      fun _ => rfl, fun _ => rfl, fun _ => ⟨rfl, rfl⟩⟩
    · rintro ⟨⟨row, col, h⟩, -⟩; cases h
    · rintro ⟨⟨row, col, h⟩, -⟩; cases h
  | makeMove row col =>
    obtain ⟨s', resp, he, h⟩ := makeMoveHandler_scores s row col
    refine ⟨s', resp, he, ?_⟩
    rw [winningMoveBy_makeMove_iff, winningMoveBy_makeMove_iff]
    have hXO : ("X" : String) ≠ "O" := by decide
    rcases h with ⟨h1, h2, h3, h4⟩ | ⟨hn, h3, h4⟩
    · rcases hp with hp | hp
      · have h3' : s'.scoreX = s.scoreX + 1 := by
          rw [h3]; simp [updateScores, hp, wrapInt_succ _ hx hxm]
        have h4' : s'.scoreO = s.scoreO := by
          rw [h4]; simp [updateScores, hp]
        have hno : ¬ (s.currentPlayer = "O" ∧ resp.status = 200 ∧
            HasLine s'.board s.currentPlayer) := fun h => hXO (hp.symm.trans h.1)
        exact ⟨fun _ => h3', fun h => absurd ⟨hp, h1, h2⟩ h, fun h => absurd h hno,
          fun _ => h4', by omega, by omega, fun _ => h4', fun h => absurd h hno,
          fun h => by cases h⟩
      · have h3' : s'.scoreX = s.scoreX := by
          rw [h3]; simp [updateScores, hp]
        have h4' : s'.scoreO = s.scoreO + 1 := by
          rw [h4]; simp [updateScores, hp, wrapInt_succ _ ho hom]
        have hnx : ¬ (s.currentPlayer = "X" ∧ resp.status = 200 ∧
            HasLine s'.board s.currentPlayer) := fun h => hXO (h.1.symm.trans hp)
        exact ⟨fun h => absurd h hnx, fun _ => h3', fun _ => h4',
          fun h => absurd ⟨hp, h1, h2⟩ h, by omega, by omega, fun h => absurd h hnx,
          fun _ => h3', fun h => by cases h⟩
    · have hnm : ∀ m : String, ¬ (s.currentPlayer = m ∧ resp.status = 200 ∧
          HasLine s'.board s.currentPlayer) := fun m h => hn h.2
      exact ⟨fun h => absurd h (hnm _), fun _ => h3, fun h => absurd h (hnm _), fun _ => h4,
        by omega, by omega, fun h => absurd h (hnm _), fun h => absurd h (hnm _),
        fun h => by cases h⟩

/-- Witness for C10 as amended: the winning move of Scenario A. -/
theorem score_update_witness :
    ∃ s' resp, handle beforeWinA (.makeMove "0" "2") = some (s', resp) ∧
      (WinningMoveBy "X" beforeWinA (.makeMove "0" "2") s' resp →
        s'.scoreX = beforeWinA.scoreX + 1) ∧
      (¬ WinningMoveBy "X" beforeWinA (.makeMove "0" "2") s' resp →
        s'.scoreX = beforeWinA.scoreX) ∧
      (WinningMoveBy "O" beforeWinA (.makeMove "0" "2") s' resp →
        s'.scoreO = beforeWinA.scoreO + 1) ∧
      (¬ WinningMoveBy "O" beforeWinA (.makeMove "0" "2") s' resp →
        s'.scoreO = beforeWinA.scoreO) ∧
      beforeWinA.scoreX ≤ s'.scoreX ∧ beforeWinA.scoreO ≤ s'.scoreO ∧
      (WinningMoveBy "X" beforeWinA (.makeMove "0" "2") s' resp →
        s'.scoreO = beforeWinA.scoreO) ∧
      (WinningMoveBy "O" beforeWinA (.makeMove "0" "2") s' resp →
        s'.scoreX = beforeWinA.scoreX) ∧
      (Request.makeMove "0" "2" = .reset →
        s'.scoreX = beforeWinA.scoreX ∧ s'.scoreO = beforeWinA.scoreO) :=
  score_update beforeWinA (.makeMove "0" "2") (Or.inl (by decide))
    (by unfold IsInt maxInt; decide) (by unfold IsInt maxInt; decide)
    (by unfold maxInt; decide) (by unfold maxInt; decide)

/-- Counterexample to C10 as stated: in `overflowState` X is to move and `scoreX`
is the largest `int`; the move to (0,2) is accepted, completes the top row
of X, and `scoreX` afterwards is the smallest `int`: it is not `scoreX + 1`
and it has decreased. -/
theorem scoreX_wraps_at_maxInt :
    overflowState.currentPlayer = "X" ∧ overflowState.gameActive = true ∧
    overflowState.scoreX = 9223372036854775807 ∧
    (makeMoveHandler overflowState "0" "2").map
        (fun p => (p.2.status, p.1.board 0 0, p.1.board 0 1, p.1.board 0 2, p.1.scoreX)) =
      some (200, "X", "X", "X", -9223372036854775808) ∧
    (makeMoveHandler overflowState "0" "2").map
        (fun p => decide (p.1.scoreX = overflowState.scoreX + 1)) = some false ∧
    (makeMoveHandler overflowState "0" "2").map
        (fun p => decide (p.1.scoreX < overflowState.scoreX)) = some true := by
  refine ⟨by decide, by decide, by decide, by decide, by decide, by decide⟩

/-- Claim C11: for every state, `resetHandler` returns, and in the state it leaves
all nine cells are `" "`, `currentPlayer` is `"X"`, `gameActive` is true and
both scores are as before; the response is the snapshot of that state with
the empty message.  Scenario E: after Scenario A and a reset the board is
empty, `currentPlayer` is `"X"`, `gameActive` is true and `scoreX` is still
1. -/
theorem reset_state :
    (∀ s : GameState, ∃ s' g, resetHandler s = some (s', .json g) ∧
      (∀ i j : Fin 3, s'.board i j = " ") ∧ s'.currentPlayer = "X" ∧
      s'.gameActive = true ∧ s'.scoreX = s.scoreX ∧ s'.scoreO = s.scoreO ∧
      g = snapshot s' "" ∧ g.Message = "") ∧
    ((run initialState scenarioA).scoreX = 1 ∧
      (run initialState scenarioA).gameActive = false ∧
      (serve initialState scenarioE).map (fun p => p.2.map Response.status) =
        some [200, 200, 200, 200, 200, 200] ∧
      (∀ i j : Fin 3, (run initialState scenarioE).board i j = " ") ∧
      (run initialState scenarioE).currentPlayer = "X" ∧
      (run initialState scenarioE).gameActive = true ∧
      (run initialState scenarioE).scoreX = 1 ∧
      ((lastResponse initialState scenarioE).bind Response.snapshot?).map
        (fun g => (g.CurrentPlayer, g.Message, g.GameActive, g.ScoreX)) =
        some ("X", "", true, 1)) := by
  refine ⟨fun s => ⟨_, _, rfl, fun i j => initializeBoard_apply _ i j, rfl, rfl, rfl, rfl,
    rfl, rfl⟩, by decide, by decide, by decide, ?_, by decide, by decide, by decide, by decide⟩
  intro i j
  fin_cases i <;> fin_cases j <;> decide

/-- Claim C12: for every board and every mark, `checkWinner` returns true if and
only if at least one of the eight lines (rows 0..2, columns 0..2, the main
diagonal, the anti-diagonal) has all three cells equal to that mark. -/
theorem checkWinner_eight_lines (b : Grid) (m : String) :
    checkWinner b m = true ↔
      ((b 0 0 = m ∧ b 0 1 = m ∧ b 0 2 = m) ∨
       (b 1 0 = m ∧ b 1 1 = m ∧ b 1 2 = m) ∨
       (b 2 0 = m ∧ b 2 1 = m ∧ b 2 2 = m) ∨
       (b 0 0 = m ∧ b 1 0 = m ∧ b 2 0 = m) ∨
       (b 0 1 = m ∧ b 1 1 = m ∧ b 2 1 = m) ∨
       (b 0 2 = m ∧ b 1 2 = m ∧ b 2 2 = m) ∨
       (b 0 0 = m ∧ b 1 1 = m ∧ b 2 2 = m) ∨
       (b 0 2 = m ∧ b 1 1 = m ∧ b 2 0 = m)) := by
  rw [checkWinner_iff]
  simp only [HasLine, exists_fin_three]
  constructor
  · rintro ((⟨h1, h2, h3⟩ | ⟨h1, h2, h3⟩ | ⟨h1, h2, h3⟩) |
      (⟨h1, h2, h3⟩ | ⟨h1, h2, h3⟩ | ⟨h1, h2, h3⟩) | ⟨h1, h2, h3⟩ | ⟨h1, h2, h3⟩)
    all_goals simp only [h1, h2, h3, and_self, true_or, or_true]
  · rintro (⟨h1, h2, h3⟩ | ⟨h1, h2, h3⟩ | ⟨h1, h2, h3⟩ | ⟨h1, h2, h3⟩ | ⟨h1, h2, h3⟩ |
      ⟨h1, h2, h3⟩ | ⟨h1, h2, h3⟩ | ⟨h1, h2, h3⟩)
    all_goals simp only [h1, h2, h3, and_self, true_or, or_true]

/-- Claim C13: for every board and all integers `row` and `col`, `isValidMove`
returns (the board is never indexed outside the grid, so there is no
index-out-of-range panic), and it returns true if and only if
`0 <= row <= 2`, `0 <= col <= 2` and the cell at `(row, col)` is `" "`.  The
function only reads its arguments and the board: its result is a Boolean
and no state. -/
theorem isValidMove_spec (b : Grid) (row col : Int) :
    ∃ v : Bool, isValidMove b row col = some v ∧
      (v = true ↔
        (0 ≤ row ∧ row ≤ 2 ∧ 0 ≤ col ∧ col ≤ 2 ∧
          ∃ r c : Fin 3, (r.val : Int) = row ∧ (c.val : Int) = col ∧ b r c = " ")) := by
  rcases isValidMove_total b row col with hv | hv
  · refine ⟨true, hv, ?_⟩
    obtain ⟨r, c, hr, hc, hcell⟩ := (isValidMove_true_iff b row col).1 hv
    have h1 := r.isLt
    have h2 := c.isLt
    exact ⟨fun _ => ⟨by omega, by omega, by omega, by omega, r, c, hr.symm, hc.symm, hcell⟩,
      fun _ => rfl⟩
  · refine ⟨false, hv, ?_⟩
    constructor
    · intro h; exact absurd h (by decide)
    · rintro ⟨-, -, -, -, r, c, hr, hc, hcell⟩
      have := (isValidMove_true_iff b row col).2 ⟨r, c, hr.symm, hc.symm, hcell⟩
      rw [hv] at this
      exact absurd this (by decide)

/-- Witness for C13: negative and very large indices are answered false without
a panic, and the corner (2,2) of the fresh board is a valid move. -/
theorem isValidMove_spec_witness :
    isValidMove initialState.board (-1) 0 = some false ∧
    isValidMove initialState.board 0 9223372036854775807 = some false ∧
    isValidMove initialState.board 2 2 = some true ∧
    ∃ v : Bool, isValidMove initialState.board 3 0 = some v ∧
      (v = true ↔
        ((0 : Int) ≤ 3 ∧ (3 : Int) ≤ 2 ∧ (0 : Int) ≤ 0 ∧ (0 : Int) ≤ 2 ∧
          ∃ r c : Fin 3, (r.val : Int) = 3 ∧ (c.val : Int) = 0 ∧
            initialState.board r c = " ")) :=
  ⟨by decide, by decide, by decide, isValidMove_spec initialState.board 3 0⟩

/-- Claim C14: for every board, `isBoardFull` returns true if and only if none of
the nine cells equals the single-space string. -/
theorem isBoardFull_spec (b : Grid) :
    isBoardFull b = true ↔ ∀ i j : Fin 3, b i j ≠ " " :=
  isBoardFull_iff b

/-- Claim C15, as amended: for every state and every move request the handler
returns; when the request is accepted (the win, draw and continuing
branches) the response is the full state snapshot, whose board,
`currentPlayer`, `gameActive`, `scoreX` and `scoreO` are those of the state
after the request, together with the message of the branch; when it is
rejected (game over, missing coordinate, invalid move) the response is a
plain-text error with status 400 that carries no snapshot, and the state is
as before. -/
theorem makeMove_response (s : GameState) (row col : String) :
    ∃ s' resp, makeMoveHandler s row col = some (s', resp) ∧
      (¬ Rejects s row col →
        ∃ g, resp = .json g ∧ g.Board = s'.board ∧ g.CurrentPlayer = s'.currentPlayer ∧
          g.GameActive = s'.gameActive ∧ g.ScoreX = s'.scoreX ∧ g.ScoreO = s'.scoreO ∧
          (HasLine s'.board s.currentPlayer →
            g.Message = "Player " ++ s.currentPlayer ++ " wins!") ∧
          (¬ HasLine s'.board s.currentPlayer → NoEmpty s'.board →
            g.Message = "It's a draw!") ∧
          (¬ HasLine s'.board s.currentPlayer → ¬ NoEmpty s'.board → g.Message = "")) ∧
      (Rejects s row col →
        s' = s ∧ resp.snapshot? = none ∧ ∃ body, resp = .error body 400) := by
  by_cases hrej : Rejects s row col
  · obtain ⟨body, he⟩ := makeMoveHandler_rejects s row col hrej
    exact ⟨_, _, he, fun h => absurd hrej h, fun _ => ⟨rfl, rfl, body, rfl⟩⟩
  · obtain ⟨s', resp, he⟩ := makeMoveHandler_returns s row col
    refine ⟨s', resp, he, fun _ => ?_, fun h => absurd h hrej⟩
    cases resp with
    | error body code =>
      exfalso
      rcases makeMoveHandler_cases s row col with ⟨h1, -⟩ | ⟨-, h1, -⟩ | ⟨-, -, -, h1, -⟩ |
        ⟨r, c, -, -, -, -, -, -, -, ⟨-, he'⟩ | ⟨-, -, he'⟩ | ⟨-, -, he'⟩⟩
      · exact hrej (Or.inl h1)
      · rcases h1 with h1 | h1
        · exact hrej (Or.inr (Or.inl h1))
        · exact hrej (Or.inr (Or.inr (Or.inl h1)))
      · exact hrej (Or.inr (Or.inr (Or.inr h1)))
      · rw [he'] at he; simp [sendJSONResponse] at he
      · rw [he'] at he; simp [sendJSONResponse] at he
      · rw [he'] at he; simp [sendJSONResponse] at he
    | json g =>
      obtain ⟨-, hg⟩ := makeMoveHandler_json s s' row col g he
      refine ⟨g, rfl, ?_⟩
      rcases hg with ⟨hl, rfl⟩ | ⟨hnl, hf, rfl⟩ | ⟨hnl, hnf, rfl⟩
      · exact ⟨rfl, rfl, rfl, rfl, rfl, fun _ => rfl, fun h => absurd hl h,
          fun h => absurd hl h⟩
      · exact ⟨rfl, rfl, rfl, rfl, rfl, fun h => absurd h hnl, fun _ _ => rfl,
          fun _ h => absurd hf h⟩
      · exact ⟨rfl, rfl, rfl, rfl, rfl, fun h => absurd h hnl, fun _ h => absurd h hnf,
          fun _ _ => rfl⟩

/-- Witness for C15 as amended: the opening move X to (0,0) on the fresh board,
which is accepted. -/
theorem makeMove_response_witness :
    ¬ Rejects initialState "0" "0" ∧
    ∃ s' resp, makeMoveHandler initialState "0" "0" = some (s', resp) ∧
      (¬ Rejects initialState "0" "0" →
        ∃ g, resp = .json g ∧ g.Board = s'.board ∧ g.CurrentPlayer = s'.currentPlayer ∧
          g.GameActive = s'.gameActive ∧ g.ScoreX = s'.scoreX ∧ g.ScoreO = s'.scoreO ∧
          (HasLine s'.board initialState.currentPlayer →
            g.Message = "Player " ++ initialState.currentPlayer ++ " wins!") ∧
          (¬ HasLine s'.board initialState.currentPlayer → NoEmpty s'.board →
            g.Message = "It's a draw!") ∧
          (¬ HasLine s'.board initialState.currentPlayer → ¬ NoEmpty s'.board →
            g.Message = "")) ∧
      (Rejects initialState "0" "0" →
        s' = initialState ∧ resp.snapshot? = none ∧ ∃ body, resp = .error body 400) :=
  ⟨by
      rintro (h | h | h | h)
      · exact absurd h (by decide)
      · exact absurd h (by decide)
      · exact absurd h (by decide)
      · exact absurd h (by decide),
    makeMove_response initialState "0" "0"⟩

/-- Counterexample to C15 as stated: on the fresh board the request with `row=5`
takes the invalid-move branch, and its response is the plain-text error
`"Invalid move"` with status 400; it carries no snapshot. -/
theorem rejection_carries_no_snapshot :
    makeMoveHandler initialState "5" "0" =
      some (initialState, .error "Invalid move" 400) ∧
    (Response.error "Invalid move" 400).snapshot? = none :=
  ⟨makeMoveHandler_invalid initialState "5" "0" (by decide) (by decide) (by decide)
      (by decide), rfl⟩

/-- Claim C16: in every state reachable by `makeMove` and `reset` requests each of
the nine cells is exactly `"X"`, `"O"` or `" "` and `currentPlayer` is exactly
`"X"` or `"O"`; so the board and `currentPlayer` of every snapshot returned
from such a state have that shape. -/
theorem reachable_shape (s : GameState) (h : Reachable s) :
    (∀ i j : Fin 3, s.board i j = "X" ∨ s.board i j = "O" ∨ s.board i j = " ") ∧
    (s.currentPlayer = "X" ∨ s.currentPlayer = "O") ∧
    (∀ (req : Request) (s' : GameState) (g : GameResponse),
      handle s req = some (s', .json g) →
      (∀ i j : Fin 3, g.Board i j = "X" ∨ g.Board i j = "O" ∨ g.Board i j = " ") ∧
      (g.CurrentPlayer = "X" ∨ g.CurrentPlayer = "O")) := by
  obtain ⟨h1, h2⟩ := shape_of_reachable h
  refine ⟨h1, h2, ?_⟩
  intro req s' g he
  obtain ⟨hb, hp, -⟩ := handle_json s s' req g he
  obtain ⟨h1', h2'⟩ := shape_of_reachable (Reachable.step req h he)
  rw [hb, hp]
  exact ⟨h1', h2'⟩

/-- Witness for C16: the state before the last move of Scenario A, which is
reachable. -/
theorem reachable_shape_witness :
    Reachable beforeWinA ∧
    (∀ i j : Fin 3,
      beforeWinA.board i j = "X" ∨ beforeWinA.board i j = "O" ∨ beforeWinA.board i j = " ") ∧
    (beforeWinA.currentPlayer = "X" ∨ beforeWinA.currentPlayer = "O") ∧
    (∀ (req : Request) (s' : GameState) (g : GameResponse),
      handle beforeWinA req = some (s', .json g) →
      (∀ i j : Fin 3, g.Board i j = "X" ∨ g.Board i j = "O" ∨ g.Board i j = " ") ∧
      (g.CurrentPlayer = "X" ∨ g.CurrentPlayer = "O")) :=
  ⟨reachable_run Reachable.init _,
    reachable_shape beforeWinA (reachable_run Reachable.init _)⟩

/-- Claim C17, as amended: for every coordinate string that, after its leading
white space (a newline not counting), does not start with a decimal integer
(a digit, or a sign followed by a digit), `parseInt` returns 0, for example
for `"abc"`; so in an active state whose cell (0,0) is empty, a request
whose row and column strings are non-empty and of that kind (for example
both `"abc"`) is not rejected: it is accepted and places the mark of the
current player at (0,0), leaving the other cells as they were. -/
theorem parseInt_unparsable :
    (∀ s : String, startsWithInteger (dropLeadingSpace s.toList) = false → parseInt s = 0) ∧
    parseInt "abc" = 0 ∧
    (∀ (st : GameState) (row col : String),
      st.gameActive = true → st.board 0 0 = " " → row ≠ "" → col ≠ "" →
      startsWithInteger (dropLeadingSpace row.toList) = false →
      startsWithInteger (dropLeadingSpace col.toList) = false →
      ∃ s' g, makeMoveHandler st row col = some (s', .json g) ∧
        s'.board 0 0 = st.currentPlayer ∧
        ∀ i j : Fin 3, ¬ (i = 0 ∧ j = 0) → s'.board i j = st.board i j) ∧
    (∀ st : GameState, st.gameActive = true → st.board 0 0 = " " →
      ∃ s' g, makeMoveHandler st "abc" "abc" = some (s', .json g) ∧
        s'.board 0 0 = st.currentPlayer) := by
  have gen : ∀ (st : GameState) (row col : String),
      st.gameActive = true → st.board 0 0 = " " → row ≠ "" → col ≠ "" →
      parseInt row = 0 → parseInt col = 0 →
      ∃ s' g, makeMoveHandler st row col = some (s', .json g) ∧
        s'.board 0 0 = st.currentPlayer ∧
        ∀ i j : Fin 3, ¬ (i = 0 ∧ j = 0) → s'.board i j = st.board i j := by
    intro st row col hact hcell hrow hcol hr hc
    obtain ⟨s', g, he, hb⟩ := makeMoveHandler_valid_board st row col 0 0 hact hrow hcol
      (by rw [hr]; rfl) (by rw [hc]; rfl) hcell
    refine ⟨s', g, he, ?_, ?_⟩
    · rw [hb, set_self]
    · intro i j hij
      rw [hb, set_other _ _ _ _ _ _ hij]
  refine ⟨parseInt_eq_zero, by decide, ?_, ?_⟩
  · intro st row col hact hcell hrow hcol hr hc
    exact gen st row col hact hcell hrow hcol (parseInt_eq_zero _ hr) (parseInt_eq_zero _ hc)
  · intro st hact hcell
    obtain ⟨s', g, he, hb, -⟩ := gen st "abc" "abc" hact hcell (by decide) (by decide)
      (by decide) (by decide)
    exact ⟨s', g, he, hb⟩

/-- Witness for C17 as amended: on the fresh board the request with row `"abc"`
and column `"x1"` puts X at (0,0). -/
theorem parseInt_unparsable_witness :
    startsWithInteger (dropLeadingSpace "abc".toList) = false ∧
    startsWithInteger (dropLeadingSpace "x1".toList) = false ∧
    parseInt "x1" = 0 ∧
    ∃ s' g, makeMoveHandler initialState "abc" "x1" = some (s', .json g) ∧
      s'.board 0 0 = initialState.currentPlayer ∧
      ∀ i j : Fin 3, ¬ (i = 0 ∧ j = 0) → s'.board i j = initialState.board i j :=
  ⟨by decide, by decide, parseInt_unparsable.1 "x1" (by decide),
    parseInt_unparsable.2.2.1 initialState "abc" "x1" (by decide) (by decide) (by decide)
      (by decide) (by decide) (by decide)⟩

/-- Counterexample to C17 as stated: the string `" 1"` (a space, then `1`; the
query `row=+1`) is non-empty and does not start with a decimal integer, since
its first character is a space, yet `parseInt` returns 1 for it, as `%d`
skips leading white space; on the fresh board the request with row `" 1"` and
column `"abc"` puts X at (1,0) and leaves (0,0) empty. -/
theorem parseInt_skips_leading_space :
    " 1" ≠ "" ∧ startsWithInteger " 1".toList = false ∧ parseInt " 1" = 1 ∧
    (makeMoveHandler initialState " 1" "abc").map
        (fun p => (p.2.status, p.1.board 0 0, p.1.board 1 0)) = some (200, " ", "X") := by
  refine ⟨by decide, by decide, by decide, by decide⟩

/-- Claim C18: in every state reachable by `makeMove` and `reset` requests, every
complete line (a row, column or diagonal of three equal non-empty marks)
consists of `currentPlayer`'s mark, so X and O never both have a complete
line; the same holds of the board and `currentPlayer` of every snapshot
returned; and after a move that completes a line of the mover, the
`currentPlayer` of the state and of the snapshot is the mover (the winner),
not the next player. -/
theorem reachable_lines (s : GameState) (h : Reachable s) :
    (∀ m : String, m ≠ " " → HasLine s.board m → m = s.currentPlayer) ∧
    ¬ (HasLine s.board "X" ∧ HasLine s.board "O") ∧
    (∀ (req : Request) (s' : GameState) (g : GameResponse),
      handle s req = some (s', .json g) →
      (∀ m : String, m ≠ " " → HasLine g.Board m → m = g.CurrentPlayer) ∧
      ¬ (HasLine g.Board "X" ∧ HasLine g.Board "O")) ∧
    (∀ (row col : String) (s' : GameState) (g : GameResponse),
      makeMoveHandler s row col = some (s', .json g) →
      HasLine s'.board s.currentPlayer →
      s'.currentPlayer = s.currentPlayer ∧ g.CurrentPlayer = s.currentPlayer ∧
        s'.gameActive = false) := by
  have two : ∀ t : GameState, LinesOfPlayer t →
      ¬ (HasLine t.board "X" ∧ HasLine t.board "O") := by
    rintro t ht ⟨hx, ho⟩
    have h1 := ht "X" (by decide) hx
    have h2 := ht "O" (by decide) ho
    exact absurd (h1.trans h2.symm) (by decide)
  have hs := linesOfPlayer_of_reachable h
  refine ⟨hs, two s hs, ?_, ?_⟩
  · intro req s' g he
    obtain ⟨hb, hp, -⟩ := handle_json s s' req g he
    have hs' := linesOfPlayer_of_reachable (Reachable.step req h he)
    rw [hb, hp]
    exact ⟨hs', two s' hs'⟩
  · intro row col s' g he hl
    have hp := (inv_of_reachable h).player
    have hne : s.currentPlayer ≠ " " := by
      rcases hp with hp | hp <;> rw [hp] <;> decide
    have hs' := linesOfPlayer_of_reachable (Reachable.step (.makeMove row col) h he)
    have hcp : s'.currentPlayer = s.currentPlayer := (hs' _ hne hl).symm
    obtain ⟨-, hgp, -⟩ := handle_json s s' (.makeMove row col) g he
    refine ⟨hcp, hgp.trans hcp, ?_⟩
    have hover := inv_of_reachable (Reachable.step (.makeMove row col) h he)
    by_contra hact
    have hact' : s'.gameActive = true := by simpa using hact
    obtain ⟨hnx, hno, -⟩ := hover.active hact'
    rcases hp with hp | hp
    · rw [hp] at hl; exact hnx hl
    · rw [hp] at hl; exact hno hl

/-- Witness for C18: the state after Scenario A, where X holds the top row. -/
theorem reachable_lines_witness :
    Reachable (run initialState scenarioA) ∧
    HasLine (run initialState scenarioA).board "X" ∧
    (run initialState scenarioA).currentPlayer = "X" ∧
    ((∀ m : String, m ≠ " " → HasLine (run initialState scenarioA).board m →
        m = (run initialState scenarioA).currentPlayer) ∧
      ¬ (HasLine (run initialState scenarioA).board "X" ∧
        HasLine (run initialState scenarioA).board "O") ∧
      (∀ (req : Request) (s' : GameState) (g : GameResponse),
        handle (run initialState scenarioA) req = some (s', .json g) →
        (∀ m : String, m ≠ " " → HasLine g.Board m → m = g.CurrentPlayer) ∧
        ¬ (HasLine g.Board "X" ∧ HasLine g.Board "O")) ∧
      (∀ (row col : String) (s' : GameState) (g : GameResponse),
        makeMoveHandler (run initialState scenarioA) row col = some (s', .json g) →
        HasLine s'.board (run initialState scenarioA).currentPlayer →
        s'.currentPlayer = (run initialState scenarioA).currentPlayer ∧
          g.CurrentPlayer = (run initialState scenarioA).currentPlayer ∧
          s'.gameActive = false)) :=
  ⟨reachable_run Reachable.init _, Or.inl ⟨0, by decide, by decide, by decide⟩, by decide,
    reachable_lines _ (reachable_run Reachable.init _)⟩

/-- Claim C19: in every state reachable by `makeMove` and `reset` requests the
number of cells holding `"X"` minus the number of cells holding `"O"` is 0
or 1, and whenever `gameActive` is true, `currentPlayer` is `"X"` exactly
when the two numbers are equal and `"O"` exactly when X has one more mark. -/
theorem reachable_balanced (s : GameState) (h : Reachable s) :
    ((countMark s.board "X" : Int) - (countMark s.board "O" : Int) = 0 ∨
      (countMark s.board "X" : Int) - (countMark s.board "O" : Int) = 1) ∧
    (s.gameActive = true →
      (s.currentPlayer = "X" ↔ countMark s.board "X" = countMark s.board "O") ∧
      (s.currentPlayer = "O" ↔ countMark s.board "X" = countMark s.board "O" + 1)) := by
  obtain ⟨h1, h2⟩ := balanced_of_reachable h
  refine ⟨by omega, fun hact => ?_⟩
  have hXO : ("X" : String) ≠ "O" := by decide
  rcases h2 hact with ⟨hp, hc⟩ | ⟨hp, hc⟩
  · refine ⟨⟨fun _ => hc, fun _ => hp⟩, ⟨fun ho => absurd (hp.symm.trans ho) hXO, fun hc' => ?_⟩⟩
    omega
  · refine ⟨⟨fun hx => absurd (hx.symm.trans hp) hXO, fun hc' => ?_⟩, ⟨fun _ => hc, fun _ => hp⟩⟩
    omega

/-- Witness for C19: the state before the last move of Scenario A, with two X,
two O and X to move. -/
theorem reachable_balanced_witness :
    Reachable beforeWinA ∧ countMark beforeWinA.board "X" = 2 ∧
    countMark beforeWinA.board "O" = 2 ∧ beforeWinA.currentPlayer = "X" ∧
    ((countMark beforeWinA.board "X" : Int) - (countMark beforeWinA.board "O" : Int) = 0 ∨
      (countMark beforeWinA.board "X" : Int) - (countMark beforeWinA.board "O" : Int) = 1) ∧
    (beforeWinA.gameActive = true →
      (beforeWinA.currentPlayer = "X" ↔
        countMark beforeWinA.board "X" = countMark beforeWinA.board "O") ∧
      (beforeWinA.currentPlayer = "O" ↔
        countMark beforeWinA.board "X" = countMark beforeWinA.board "O" + 1)) :=
  ⟨reachable_run Reachable.init _, by decide, by decide, by decide,
    reachable_balanced beforeWinA (reachable_run Reachable.init _)⟩

/-- Claim C20: with `currentPlayer` one of `"X"`, `"O"`, every accepted move
request reduces the number of empty cells by exactly one and every rejected
one leaves it unchanged; hence a list of move requests without a reset is
served with at most as many accepted moves as there were empty cells at the
start, which is at most 9; after a reset at most 9 moves are accepted, and
once 9 are accepted the game is finished (`gameActive = false`). -/
theorem accepted_moves_bound :
    (∀ (s s' : GameState) (row col : String) (resp : Response),
      (s.currentPlayer = "X" ∨ s.currentPlayer = "O") →
      makeMoveHandler s row col = some (s', resp) →
      (resp.status = 200 → countMark s'.board " " + 1 = countMark s.board " ") ∧
      (resp.status ≠ 200 → countMark s'.board " " = countMark s.board " ")) ∧
    (∀ (s : GameState) (reqs : List Request),
      (s.currentPlayer = "X" ∨ s.currentPlayer = "O") → AllMoves reqs →
      ∃ s' rs, serve s reqs = some (s', rs) ∧
        accepted rs + countMark s'.board " " = countMark s.board " " ∧
        accepted rs ≤ countMark s.board " " ∧ accepted rs ≤ 9) ∧
    (∀ (s0 : GameState) (reqs : List Request), AllMoves reqs →
      ∃ s1 r1 s' rs, resetHandler s0 = some (s1, r1) ∧ countMark s1.board " " = 9 ∧
        serve s1 reqs = some (s', rs) ∧ accepted rs ≤ 9 ∧
        (accepted rs = 9 → s'.gameActive = false)) := by
  refine ⟨?_, ?_, ?_⟩
  · intro s s' row col resp hp he
    obtain ⟨hacc, hrej, -⟩ := makeMoveHandler_countEmpty s s' row col resp hp he
    exact ⟨hacc, fun hst => by rw [hrej hst]⟩
  · intro s reqs hp hall
    obtain ⟨s', rs, hserve, hcount, -⟩ := serve_moves reqs s hp hall
    have := countMark_le s.board " "
    exact ⟨s', rs, hserve, hcount, by omega, by omega⟩
  · intro s0 reqs hall
    have hblank : ∀ i j : Fin 3, (initializeBoard s0.board) i j = " " :=
      fun i j => initializeBoard_apply _ i j
    obtain ⟨h9, -, -⟩ := countMark_blank _ hblank
    obtain ⟨s', rs, hserve, hcount, hq⟩ := serve_moves reqs
      { s0 with board := initializeBoard s0.board, currentPlayer := "X", gameActive := true }
      (Or.inl rfl) hall
    refine ⟨_, _, s', rs, rfl, h9, hserve, ?_, ?_⟩
    · have h9' : countMark (initializeBoard s0.board) " " = 9 := h9
      have hc : accepted rs + countMark s'.board " " = countMark (initializeBoard s0.board) " " :=
        hcount
      omega
    · intro hacc
      have h9' : countMark (initializeBoard s0.board) " " = 9 := h9
      have hc : accepted rs + countMark s'.board " " = countMark (initializeBoard s0.board) " " :=
        hcount
      apply hq
      · intro hz
        have hz' : countMark (initializeBoard s0.board) " " = 0 := hz
        omega
      · omega

/-- Witness for C20: Scenario B after a reset of the fresh state: nine moves,
all accepted, and the game is finished. -/
theorem accepted_moves_bound_witness :
    AllMoves scenarioB ∧
    (serve initialState (.reset :: scenarioB)).map (fun p => (accepted p.2, p.1.gameActive)) =
      some (10, false) ∧
    ∃ s1 r1 s' rs, resetHandler initialState = some (s1, r1) ∧ countMark s1.board " " = 9 ∧
      serve s1 scenarioB = some (s', rs) ∧ accepted rs ≤ 9 ∧
      (accepted rs = 9 → s'.gameActive = false) :=
  have hall : AllMoves scenarioB := by
    intro req hreq
    simp only [scenarioB, List.mem_cons, List.mem_singleton, List.not_mem_nil, or_false] at hreq
    rcases hreq with rfl | rfl | rfl | rfl | rfl | rfl | rfl | rfl | rfl
    all_goals exact ⟨_, _, rfl⟩
  ⟨hall, by decide, accepted_moves_bound.2.2 initialState scenarioB hall⟩

end TicTacToe
